import Mathlib

/-!
Verification development for the calculation-notebook core of PDFtoMD
(`src/notebook/document.py`, helpers from `src/notebook/units.py`).

The Python data model and the evaluation pipeline are shallowly embedded:
Python floats are modelled by `NVal` (an exact rational or the not-a-number
sentinel; every numeric literal and arithmetic result exercised by the
verified claims is exactly representable), Python dicts by association lists,
Python exceptions by `Except`, and object identity (needed for the symbol
registry) by allocation serial numbers.  Strings are manipulated through
their character lists so that the trimming/scanning helpers of the source
reduce in the kernel.
-/

namespace Notebook

/-- A Python float value: an exact rational, or the `nan` sentinel.
IEEE rounding is not modelled; all literals and arithmetic results reached
by the verified claims are exact in ℚ. -/
inductive NVal where
  | fin (q : ℚ)
  | nan
  deriving DecidableEq, Repr

/-- Association-list lookup, modelling Python `dict.get` /  `in`. -/
def dictGet {α : Type} (m : List (String × α)) (k : String) : Option α :=
  match m with
  | [] => none
  | (k', v) :: t => if k' = k then some v else dictGet t k

/-- Association-list update, modelling `d[k] = v` on a Python dict: an
existing key keeps its position, a new key is appended. -/
def dictSet {α : Type} (m : List (String × α)) (k : String) (v : α) :
    List (String × α) :=
  match m with
  | [] => [(k, v)]
  | (k', v') :: t => if k' = k then (k, v) :: t else (k', v') :: dictSet t k v

/-- `dict.setdefault`: insert only when the key is absent. -/
def dictSetdefault {α : Type} (m : List (String × α)) (k : String) (v : α) :
    List (String × α) :=
  match dictGet m k with
  | some _ => m
  | none => m ++ [(k, v)]

/-- Membership of a key, modelling `k in d`. -/
def dictHas {α : Type} (m : List (String × α)) (k : String) : Bool :=
  (dictGet m k).isSome

theorem dictGet_dictSet_self {α : Type} (m : List (String × α)) (k : String) (v : α) :
    dictGet (dictSet m k v) k = some v := by
  induction m with
  | nil => simp [dictSet, dictGet]
  | cons h t ih =>
    obtain ⟨k', v'⟩ := h
    by_cases hk : k' = k
    · simp [dictSet, dictGet, hk]
    · simp [dictSet, dictGet, hk, ih]

/-- Python `str.strip()` on the character level. -/
def stripChars (cs : List Char) : List Char :=
  (cs.dropWhile Char.isWhitespace).reverse.dropWhile Char.isWhitespace |>.reverse

/-- Python `str.strip()`. -/
def pstrip (s : String) : String := ⟨stripChars s.data⟩

/-- Comparison operators appearing in conditions
(`ast.Gt/GtE/Lt/LtE/Eq/NotEq` in `_parse_conditional_expr`). -/
inductive CmpOp where
  | gt | ge | lt | le | eq | ne
  deriving DecidableEq, Repr

mutual
/-- A SymPy expression as produced by `FormulaBlock._safe_sympify` /
`_parse_conditional_expr`: numbers (`Integer`/`Float` are merged into one
exact rational constructor since only printing distinguishes them), the
`nan` sentinel, symbols, arithmetic nodes, applications of (possibly
undefined) functions, and `Piecewise`. -/
inductive SymExpr where
  | num (q : ℚ)
  | nanC
  | zooC
  | symb (s : String)
  | add (a b : SymExpr)
  | sub (a b : SymExpr)
  | mul (a b : SymExpr)
  | div (a b : SymExpr)
  | pow (a b : SymExpr)
  | neg (a : SymExpr)
  | app (f : String) (args : SymArgs)
  | piecewise (ps : PWList)
  deriving DecidableEq, Repr

/-- Argument list of a SymPy function application. -/
inductive SymArgs where
  | nil
  | cons (e : SymExpr) (t : SymArgs)
  deriving DecidableEq, Repr

/-- A SymPy Boolean condition: the literal `True`, a relation, or a
conjunction (`sp.And` over the relation chain of a Python comparison). -/
inductive SymCond where
  | triv
  | rel (op : CmpOp) (a b : SymExpr)
  | conj (a b : SymCond)
  deriving DecidableEq, Repr

/-- The ordered `(value, condition)` pair list of a `sp.Piecewise`. -/
inductive PWList where
  | nil
  | cons (v : SymExpr) (c : SymCond) (t : PWList)
  deriving DecidableEq, Repr
end

/-- `FormulaBlock` (the dataclass fields of `document.py`).  `raw` and
`block_id` come from `Block`; the remaining fields are the evaluation
outputs with their dataclass defaults.  `evaluation_time_ms` is modelled
as an opaque optional value (wall-clock timing is not embedded). -/
structure FormulaBlock where
  raw : String
  block_id : String
  sympy_expr : Option SymExpr := none
  result : Option String := none
  latex : Option String := none
  numeric_value : Option NVal := none
  is_assignment : Bool := false
  variable_name : Option String := none
  is_function_def : Bool := false
  function_name : Option String := none
  function_params : Option (List String) := none
  is_array : Bool := false
  array_values : Option (List NVal) := none
  evaluation_status : String := "ok"
  error_type : Option String := none
  error_message : Option String := none
  evaluation_time_ms : Option ℚ := none
  deriving DecidableEq, Repr

/-- `TextBlock`: raw text plus identifier (its rendering helpers carry no
persistent state relevant to the claims). -/
structure TextBlock where
  raw : String
  block_id : String
  deriving DecidableEq, Repr

/-- A notebook block. -/
inductive Block where
  | text (tb : TextBlock)
  | formula (fb : FormulaBlock)
  deriving DecidableEq, Repr

/-- The serialized payload written by `Block.to_dict` /
`FormulaBlock.to_dict`: the common keys `type`/`raw`/`id`, plus — for
formula blocks — `result`, `latex`, `numeric_value`, `is_assignment` and
`variable_name`.  Defaults mirror the `payload.get(..., default)` calls of
`Block.from_dict`. -/
structure BlockDict where
  btype : String
  raw : String
  bid : String
  result : Option String := none
  latex : Option String := none
  numeric_value : Option NVal := none
  is_assignment : Bool := false
  variable_name : Option String := none
  deriving DecidableEq, Repr

/-- `Block.to_dict` / `FormulaBlock.to_dict`. -/
def blockToDict : Block → BlockDict
  | .text tb => { btype := "TextBlock", raw := tb.raw, bid := tb.block_id }
  | .formula fb =>
      { btype := "FormulaBlock", raw := fb.raw, bid := fb.block_id,
        result := fb.result, latex := fb.latex,
        numeric_value := fb.numeric_value,
        is_assignment := fb.is_assignment,
        variable_name := fb.variable_name }

/-- `Block.from_dict`: a `FormulaBlock` payload restores exactly the five
cached display fields (plus `raw`/`id`); everything else gets its dataclass
default.  Any other type tag yields a `TextBlock`. -/
def blockFromDict (p : BlockDict) : Block :=
  if p.btype = "FormulaBlock" then
    .formula { raw := p.raw, block_id := p.bid, result := p.result,
               latex := p.latex, numeric_value := p.numeric_value,
               is_assignment := p.is_assignment,
               variable_name := p.variable_name }
  else
    .text { raw := p.raw, block_id := p.bid }

/-- The snapshot copy used by `Document._push_history`, `undo` and `redo`:
`Block.from_dict(block.to_dict())`. -/
def roundTrip (b : Block) : Block := blockFromDict (blockToDict b)

/-- `Document`: ordered blocks plus the snapshot-based undo/redo stacks.
The head of each stack models the end (top) of the corresponding Python
list. -/
structure Document where
  blocks : List Block
  undo_stack : List (List Block) := []
  redo_stack : List (List Block) := []
  deriving DecidableEq, Repr

/-- `Document.HISTORY_LIMIT`. -/
def HISTORY_LIMIT : Nat := 20

/-- `Document._push_history`: push a serialization round-trip snapshot of
the current block list, evicting the oldest entry past the depth cap. -/
def pushHistory (d : Document) : Document :=
  let u := (d.blocks.map roundTrip) :: d.undo_stack
  { d with undo_stack := if u.length > HISTORY_LIMIT then u.dropLast else u }

/-- `Document.add_block`. -/
def addBlock (d : Document) (b : Block) : Document :=
  let d := pushHistory d
  { d with blocks := d.blocks ++ [b], redo_stack := [] }

/-- `Document.undo`: pop one undo snapshot and park the current state on
the redo stack; `false` (no state change) when the stack is empty. -/
def undo (d : Document) : Document × Bool :=
  match d.undo_stack with
  | [] => (d, false)
  | s :: rest =>
      ({ blocks := s, undo_stack := rest,
         redo_stack := (d.blocks.map roundTrip) :: d.redo_stack }, true)

/-- `Document.redo`. -/
def redo (d : Document) : Document × Bool :=
  match d.redo_stack with
  | [] => (d, false)
  | s :: rest =>
      ({ blocks := s, redo_stack := rest,
         undo_stack := (d.blocks.map roundTrip) :: d.undo_stack }, true)

/-- `N` consecutive `add_block` calls. -/
def addAll (d : Document) (bs : List Block) : Document := bs.foldl addBlock d

/-- `n` consecutive `undo()` calls (the last call is peeled off at the
outside); the Boolean records whether every call succeeded. -/
def undoN (d : Document) : Nat → Document × Bool
  | 0 => (d, true)
  | n + 1 =>
      let r := undoN d n
      let r2 := undo r.1
      (r2.1, r.2 && r2.2)

/-- The ordered snapshots parked on the redo stack after `bs.length`
undos of `addAll d bs` (top of stack first). -/
def prefixSnaps (blocks : List Block) (bs : List Block) : List (List Block) :=
  (List.range bs.length).map (fun i => (blocks ++ bs.take (i + 1)).map roundTrip)

/- ### The expression fragment evaluated by the numeric fast path

`FormulaBlock._evaluate_numeric` feeds the (normalized) source text to
Python `eval` in a restricted environment.  The fragment exercised by the
verified claims — numeric literals, identifiers, `+ - * / **`, unary minus,
parenthesisation and calls of user-defined functions — is embedded with a
real tokenizer and precedence parser; text outside the fragment is reported
as a syntax error. -/

mutual
/-- A parsed Python expression (the subset of `ast` nodes reachable from
the embedded fragment). -/
inductive PyExpr where
  | num (q : ℚ)
  | name (s : String)
  | add (a b : PyExpr)
  | sub (a b : PyExpr)
  | mul (a b : PyExpr)
  | div (a b : PyExpr)
  | pow (a b : PyExpr)
  | neg (a : PyExpr)
  | call (f : PyExpr) (args : PyArgs)
  deriving DecidableEq, Repr

/-- Call argument list. -/
inductive PyArgs where
  | nil
  | cons (e : PyExpr) (t : PyArgs)
  deriving DecidableEq, Repr
end

/-- Lexer tokens of the embedded fragment. -/
inductive Tok where
  | num (q : ℚ)
  | ident (s : String)
  | plus | minus | star | dstar | slash | lparen | rparen | comma
  deriving DecidableEq, Repr

@[simp] def isIdentStart (c : Char) : Bool := c.isAlpha || c = '_'
@[simp] def isIdentChar (c : Char) : Bool := c.isAlphanum || c = '_'

/-- Leading run of identifier-continuation characters. -/
def takeIdentRest : List Char → (List Char × List Char)
  | [] => ([], [])
  | c :: t =>
      if isIdentChar c then
        let (a, r) := takeIdentRest t
        (c :: a, r)
      else ([], c :: t)

/-- Leading identifier (`[A-Za-z_][A-Za-z0-9_]*`), if any. -/
def takeIdent : List Char → (List Char × List Char)
  | [] => ([], [])
  | c :: t =>
      if isIdentStart c then
        let (a, r) := takeIdentRest t
        (c :: a, r)
      else ([], c :: t)

/-- Leading digit run. -/
def takeDigits : List Char → (List Char × List Char)
  | [] => ([], [])
  | c :: t =>
      if c.isDigit then
        let (a, r) := takeDigits t
        (c :: a, r)
      else ([], c :: t)

/-- Decimal digits to a natural number. -/
def digitsToNat (ds : List Char) : Nat :=
  ds.foldl (fun acc c => acc * 10 + (c.toNat - 48)) 0

/-- Value of `intpart.fracpart`. -/
def decimalToRat (ip fp : List Char) : ℚ :=
  (digitsToNat ip : ℚ) + (digitsToNat fp : ℚ) / ((10 : ℚ) ^ fp.length)

/-- Is the string a valid Python identifier (ASCII)? -/
def isIdentString (s : String) : Bool :=
  match s.data with
  | [] => false
  | c :: t => isIdentStart c && t.all isIdentChar

/-- Tokenizer (fuel-indexed; the fuel is a bound on the number of tokens). -/
def tokenizeAux : Nat → List Char → Except Unit (List Tok)
  | 0, _ => .error ()
  | _ + 1, [] => .ok []
  | n + 1, c :: t =>
      if c.isWhitespace then tokenizeAux n t
      else if c.isDigit then
        let (ip, r1) := takeDigits (c :: t)
        match r1 with
        | '.' :: r2 =>
            let (fp, r3) := takeDigits r2
            (tokenizeAux n r3).map (Tok.num (decimalToRat ip fp) :: ·)
        | _ => (tokenizeAux n r1).map (Tok.num ((digitsToNat ip : ℚ)) :: ·)
      else if isIdentStart c then
        let (idc, r1) := takeIdent (c :: t)
        (tokenizeAux n r1).map (Tok.ident ⟨idc⟩ :: ·)
      else if c = '+' then (tokenizeAux n t).map (Tok.plus :: ·)
      else if c = '-' then (tokenizeAux n t).map (Tok.minus :: ·)
      else if c = '*' then
        match t with
        | '*' :: t2 => (tokenizeAux n t2).map (Tok.dstar :: ·)
        | _ => (tokenizeAux n t).map (Tok.star :: ·)
      else if c = '/' then (tokenizeAux n t).map (Tok.slash :: ·)
      else if c = '(' then (tokenizeAux n t).map (Tok.lparen :: ·)
      else if c = ')' then (tokenizeAux n t).map (Tok.rparen :: ·)
      else if c = ',' then (tokenizeAux n t).map (Tok.comma :: ·)
      else .error ()

/-- Tokenize a string of the embedded fragment. -/
def tokenize (s : String) : Except Unit (List Tok) :=
  tokenizeAux (s.data.length + 1) s.data

mutual
/-- `+`/`-` level (left-associative). -/
def parseA : Nat → List Tok → Except Unit (PyExpr × List Tok)
  | 0, _ => .error ()
  | n + 1, ts => do
      let (e, r) ← parseT n ts
      parseARest n e r

def parseARest : Nat → PyExpr → List Tok → Except Unit (PyExpr × List Tok)
  | 0, _, _ => .error ()
  | n + 1, acc, ts =>
      match ts with
      | .plus :: r => do
          let (e, r2) ← parseT n r
          parseARest n (.add acc e) r2
      | .minus :: r => do
          let (e, r2) ← parseT n r
          parseARest n (.sub acc e) r2
      | _ => .ok (acc, ts)

/-- `*`/`/` level (left-associative). -/
def parseT : Nat → List Tok → Except Unit (PyExpr × List Tok)
  | 0, _ => .error ()
  | n + 1, ts => do
      let (e, r) ← parseU n ts
      parseTRest n e r

def parseTRest : Nat → PyExpr → List Tok → Except Unit (PyExpr × List Tok)
  | 0, _, _ => .error ()
  | n + 1, acc, ts =>
      match ts with
      | .star :: r => do
          let (e, r2) ← parseU n r
          parseTRest n (.mul acc e) r2
      | .slash :: r => do
          let (e, r2) ← parseU n r
          parseTRest n (.div acc e) r2
      | _ => .ok (acc, ts)

/-- Unary minus level (`-x**2` parses as `-(x**2)`, as in Python). -/
def parseU : Nat → List Tok → Except Unit (PyExpr × List Tok)
  | 0, _ => .error ()
  | n + 1, ts =>
      match ts with
      | .minus :: r => do
          let (e, r2) ← parseU n r
          .ok (.neg e, r2)
      | _ => parseP n ts

/-- Power level: `primary ** unary`, right-associative. -/
def parseP : Nat → List Tok → Except Unit (PyExpr × List Tok)
  | 0, _ => .error ()
  | n + 1, ts => do
      let (e, r) ← parseAtomTrail n ts
      match r with
      | .dstar :: r2 => do
          let (e2, r3) ← parseU n r2
          .ok (.pow e e2, r3)
      | _ => .ok (e, r)

/-- Atom followed by call trailers. -/
def parseAtomTrail : Nat → List Tok → Except Unit (PyExpr × List Tok)
  | 0, _ => .error ()
  | n + 1, ts => do
      let (e, r) ← parseAtom n ts
      parseTrailers n e r

def parseTrailers : Nat → PyExpr → List Tok → Except Unit (PyExpr × List Tok)
  | 0, _, _ => .error ()
  | n + 1, acc, ts =>
      match ts with
      | .lparen :: .rparen :: r => parseTrailers n (.call acc .nil) r
      | .lparen :: r => do
          let (args, r2) ← parseArgs n r
          parseTrailers n (.call acc args) r2
      | _ => .ok (acc, ts)

/-- Comma-separated arguments up to the closing parenthesis. -/
def parseArgs : Nat → List Tok → Except Unit (PyArgs × List Tok)
  | 0, _ => .error ()
  | n + 1, ts => do
      let (e, r) ← parseA n ts
      match r with
      | .comma :: r2 => do
          let (rest, r3) ← parseArgs n r2
          .ok (.cons e rest, r3)
      | .rparen :: r2 => .ok (.cons e .nil, r2)
      | _ => .error ()

def parseAtom : Nat → List Tok → Except Unit (PyExpr × List Tok)
  | 0, _ => .error ()
  | n + 1, ts =>
      match ts with
      | .num q :: r => .ok (.num q, r)
      | .ident s :: r => .ok (.name s, r)
      | .lparen :: r => do
          let (e, r2) ← parseA n r
          match r2 with
          | .rparen :: r3 => .ok (e, r3)
          | _ => .error ()
      | _ => .error ()
end

/-- Parse a whole expression string of the embedded fragment. -/
def parseExprString (s : String) : Except Unit PyExpr := do
  let ts ← tokenize s
  let (e, r) ← parseA (20 * ts.length + 20) ts
  match r with
  | [] => .ok e
  | _ => .error ()

/-- `FormulaBlock._normalize_expression`: insert `*` between a digit and a
following letter or `(`, and between `)` and `(`. -/
def normChars : List Char → List Char
  | [] => []
  | [c] => [c]
  | c1 :: c2 :: t =>
      if (c1.isDigit && (c2.isAlpha || c2 = '(')) || (c1 = ')' && c2 = '(') then
        c1 :: '*' :: normChars (c2 :: t)
      else
        c1 :: normChars (c2 :: t)

/-- `FormulaBlock._normalize_expression` on strings. -/
def normalizeExpression (s : String) : String := ⟨normChars s.data⟩

/-- The `.replace("^", "**")` step of `_evaluate_numeric`. -/
def caretToDstar (s : String) : String :=
  ⟨(s.data.map (fun c => if c = '^' then ['*', '*'] else [c])).flatten⟩

/-- Characters that the assignment regex `(?<![<>=!])=(?![=])` forbids
immediately before the `=`. -/
def isCmpPrev : Option Char → Bool
  | some c => c = '<' || c = '>' || c = '=' || c = '!'
  | none => false

/-- Scan for the first `=` acceptable to the assignment regex. -/
def assignScan : List Char → Option Char → List Char → Option (List Char × List Char)
  | [], _, _ => none
  | c :: rest, prev, acc =>
      if c = '=' && !isCmpPrev prev && !(rest.head? = some '=') then
        some (acc.reverse, rest)
      else
        assignScan rest (some c) (c :: acc)

/-- The assignment split of `FormulaBlock.evaluate` (lines 702-708): the
raw text around the first top-level `=`, both parts stripped. -/
def assignSplit (raw : String) : Option (String × String) :=
  (assignScan raw.data none []).map
    (fun p => (⟨stripChars p.1⟩, ⟨stripChars p.2⟩))

/-- `FormulaBlock._parse_function_definition`: match
`name(param[, param...])` where every piece is an identifier and at least
one parameter exists. -/
def parseFunctionDefinition (lhs : String) : Option (String × List String) :=
  let s := stripChars lhs.data
  match takeIdent s with
  | ([], _) => none
  | (idc, rest) =>
      match rest.dropWhile Char.isWhitespace with
      | '(' :: rest2 =>
          match rest2.reverse with
          | ')' :: revInner =>
              let inner := revInner.reverse
              if inner.contains ')' then none
              else
                let paramsStr := pstrip ⟨inner⟩
                if paramsStr = "" then none
                else
                  let params := ((paramsStr.splitOn ",").map pstrip).filter (· ≠ "")
                  if params = [] then none
                  else if params.all isIdentString then some (⟨idc⟩, params)
                  else none
          | _ => none
      | _ => none

/-- Python-level exceptions raised (and classified via
`type(exc).__name__`) inside the pipeline.  `builtinBoundary` marks a call
of one of the opaque `math_env` helpers, which lies outside the embedded
fragment (no verified claim invokes a builtin helper); `fuelOut` models
exhaustion of the evaluation fuel (`RecursionError`). -/
inductive PyError where
  | nameErr (s : String)
  | zeroDiv
  | typeErr (m : String)
  | syntaxErr
  | valueErr (m : String)
  | attrErr (m : String)
  | builtinBoundary (s : String)
  | fuelOut
  deriving DecidableEq, Repr

/-- `type(exc).__name__`, the string stored into `error_type`. -/
def errName : PyError → String
  | .nameErr _ => "NameError"
  | .zeroDiv => "ZeroDivisionError"
  | .typeErr _ => "TypeError"
  | .syntaxErr => "SyntaxError"
  | .valueErr _ => "ValueError"
  | .attrErr _ => "AttributeError"
  | .builtinBoundary _ => "ModelBoundaryError"
  | .fuelOut => "RecursionError"

/-- `str(exc)`, the string stored into `error_message`. -/
def errMsg : PyError → String
  | .nameErr s => "name " ++ s ++ " is not defined"
  | .zeroDiv => "division by zero"
  | .typeErr m => m
  | .syntaxErr => "invalid syntax"
  | .valueErr m => m
  | .attrErr m => m
  | .builtinBoundary s => "builtin helper " ++ s ++ " outside embedded fragment"
  | .fuelOut => "maximum recursion depth exceeded"

/-- Python `float(str)`: optional sign and a decimal literal (the
scientific-notation and `inf`/`nan` spellings are outside the fragment). -/
def parseFloat (s : String) : Option ℚ :=
  let cs := stripChars s.data
  let (sgn, cs) : ℚ × List Char :=
    match cs with
    | '-' :: t => (-1, t)
    | '+' :: t => (1, t)
    | _ => (1, cs)
  let (ip, r1) := takeDigits cs
  match r1 with
  | [] => if ip = [] then none else some (sgn * (digitsToNat ip : ℚ))
  | '.' :: r2 =>
      let (fp, r3) := takeDigits r2
      if r3 = [] && (ip ≠ [] || fp ≠ []) then some (sgn * decimalToRat ip fp)
      else none
  | _ => none

/- ### SymPy auto-evaluation

`parse_expr` (and `.subs`/`sp.N`) evaluate arithmetic on numeric operands
when expressions are constructed: `2 + 2` parses to `Integer(4)` and
`5 / 0` to `zoo` (complex infinity).  The smart constructors below model
this auto-evaluation on the embedded fragment. -/

def symAddE : SymExpr → SymExpr → SymExpr
  | .num p, .num q => .num (p + q)
  | .nanC, _ => .nanC
  | _, .nanC => .nanC
  | .zooC, .zooC => .nanC
  | .zooC, .num _ => .zooC
  | .num _, .zooC => .zooC
  | a, b => .add a b

def symSubE : SymExpr → SymExpr → SymExpr
  | .num p, .num q => .num (p - q)
  | .nanC, _ => .nanC
  | _, .nanC => .nanC
  | .zooC, .zooC => .nanC
  | .zooC, .num _ => .zooC
  | .num _, .zooC => .zooC
  | a, b => .sub a b

def symMulE : SymExpr → SymExpr → SymExpr
  | .num p, .num q => .num (p * q)
  | .nanC, _ => .nanC
  | _, .nanC => .nanC
  | .zooC, .num q => if q = 0 then .nanC else .zooC
  | .num q, .zooC => if q = 0 then .nanC else .zooC
  | .zooC, .zooC => .zooC
  | a, b => .mul a b

def symDivE : SymExpr → SymExpr → SymExpr
  | .num p, .num q =>
      if q = 0 then (if p = 0 then .nanC else .zooC) else .num (p / q)
  | .nanC, _ => .nanC
  | _, .nanC => .nanC
  | .num _, .zooC => .num 0
  | .zooC, .num q => if q = 0 then .zooC else .zooC
  | a, b => .div a b

/-- Powers: integer exponents on rational bases evaluate exactly
(`0 ** negative` gives `zoo`); fractional powers stay symbolic (surds such
as `2**(1/2)` that SymPy would simplify are outside the fragment). -/
def symPowE : SymExpr → SymExpr → SymExpr
  | .num p, .num e =>
      if e.den = 1 then
        if p = 0 ∧ e.num < 0 then .zooC else .num (p ^ e.num)
      else .pow (.num p) (.num e)
  | .nanC, .num e => if e = 0 then .num 1 else .nanC
  | .nanC, _ => .nanC
  | _, .nanC => .nanC
  | a, b => .pow a b

def symNegE : SymExpr → SymExpr
  | .num q => .num (-q)
  | .nanC => .nanC
  | .zooC => .zooC
  | a => .neg a

mutual
/-- Structural conversion of a parsed Python expression into the SymPy
expression produced by `parse_expr` (with auto-evaluation; known names and
user-function names resolve to symbols/undefined functions, which is
numerically transparent). -/
def toSym : PyExpr → Except PyError SymExpr
  | .num q => .ok (.num q)
  | .name s => .ok (.symb s)
  | .add a b => do .ok (symAddE (← toSym a) (← toSym b))
  | .sub a b => do .ok (symSubE (← toSym a) (← toSym b))
  | .mul a b => do .ok (symMulE (← toSym a) (← toSym b))
  | .div a b => do .ok (symDivE (← toSym a) (← toSym b))
  | .pow a b => do .ok (symPowE (← toSym a) (← toSym b))
  | .neg a => do .ok (symNegE (← toSym a))
  | .call f args =>
      match f with
      | .name fn => do .ok (.app fn (← toSymArgs args))
      | _ => .error .syntaxErr

def toSymArgs : PyArgs → Except PyError SymArgs
  | .nil => .ok .nil
  | .cons e t => do .ok (.cons (← toSym e) (← toSymArgs t))
end

mutual
/-- `expr.subs(numeric_values)`: replace every known symbol by its numeric
value, re-evaluating touched nodes (SymPy substitution auto-evaluates). -/
def symSubstN : SymExpr → List (String × NVal) → SymExpr
  | .num q, _ => .num q
  | .nanC, _ => .nanC
  | .zooC, _ => .zooC
  | .symb s, m =>
      match dictGet m s with
      | some (.fin q) => .num q
      | some .nan => .nanC
      | none => .symb s
  | .add a b, m => symAddE (symSubstN a m) (symSubstN b m)
  | .sub a b, m => symSubE (symSubstN a m) (symSubstN b m)
  | .mul a b, m => symMulE (symSubstN a m) (symSubstN b m)
  | .div a b, m => symDivE (symSubstN a m) (symSubstN b m)
  | .pow a b, m => symPowE (symSubstN a m) (symSubstN b m)
  | .neg a, m => symNegE (symSubstN a m)
  | .app f args, m => .app f (symSubstArgs args m)
  | .piecewise ps, m => .piecewise (symSubstPW ps m)

def symSubstArgs : SymArgs → List (String × NVal) → SymArgs
  | .nil, _ => .nil
  | .cons e t, m => .cons (symSubstN e m) (symSubstArgs t m)

def symSubstCond : SymCond → List (String × NVal) → SymCond
  | .triv, _ => .triv
  | .rel op a b, m => .rel op (symSubstN a m) (symSubstN b m)
  | .conj a b, m => .conj (symSubstCond a m) (symSubstCond b m)

def symSubstPW : PWList → List (String × NVal) → PWList
  | .nil, _ => .nil
  | .cons v c t, m => .cons (symSubstN v m) (symSubstCond c m) (symSubstPW t m)
end

/-- `numeric.is_real and float(numeric)` succeed exactly when the SymPy
object is a plain (finite) number. -/
def exprIsRealNum : SymExpr → Option ℚ
  | .num q => some q
  | _ => none

/-- Integer rendering. -/
def intStr (n : ℤ) : String :=
  if n < 0 then "-" ++ Nat.repr n.natAbs else Nat.repr n.natAbs

/-- Rational rendering in SymPy style. -/
def ratStr (q : ℚ) : String :=
  if q.den = 1 then intStr q.num else intStr q.num ++ "/" ++ Nat.repr q.den

mutual
/-- A deterministic printer standing in for both `str(expr)` and
`sp.latex(expr)` (plus `_cleanup_latex`): the pipeline stores the printed
strings in `result`/`latex`, and no verified claim constrains their exact
spelling — only their determinism and presence. -/
def symStr : SymExpr → String
  | .num q => ratStr q
  | .nanC => "nan"
  | .zooC => "zoo"
  | .symb s => s
  | .add a b => "(" ++ symStr a ++ " + " ++ symStr b ++ ")"
  | .sub a b => "(" ++ symStr a ++ " - " ++ symStr b ++ ")"
  | .mul a b => "(" ++ symStr a ++ "*" ++ symStr b ++ ")"
  | .div a b => "(" ++ symStr a ++ "/" ++ symStr b ++ ")"
  | .pow a b => "(" ++ symStr a ++ "**" ++ symStr b ++ ")"
  | .neg a => "(-" ++ symStr a ++ ")"
  | .app f args => f ++ "(" ++ symStrArgs args ++ ")"
  | .piecewise ps => "Piecewise(" ++ symStrPW ps ++ ")"

def symStrArgs : SymArgs → String
  | .nil => ""
  | .cons e .nil => symStr e
  | .cons e t => symStr e ++ ", " ++ symStrArgs t

def symStrCond : SymCond → String
  | .triv => "True"
  | .rel op a b =>
      let o := match op with
        | .gt => " > " | .ge => " >= " | .lt => " < "
        | .le => " <= " | .eq => " == " | .ne => " != "
      symStr a ++ o ++ symStr b
  | .conj a b => "(" ++ symStrCond a ++ ") & (" ++ symStrCond b ++ ")"

def symStrPW : PWList → String
  | .nil => ""
  | .cons v c .nil => "(" ++ symStr v ++ ", " ++ symStrCond c ++ ")"
  | .cons v c t => "(" ++ symStr v ++ ", " ++ symStrCond c ++ "), " ++ symStrPW t
end

/-- `FormulaBlock._lhs_latex` (underscore-to-subscript cosmetics are not
modelled; `latex` content is not constrained by any verified claim). -/
def latexName (s : String) : String := s

/-- `html.escape`. -/
def htmlEscape (s : String) : String :=
  ⟨(s.data.map (fun c =>
      if c = '&' then "&amp;".data
      else if c = '<' then "&lt;".data
      else if c = '>' then "&gt;".data
      else if c = '"' then "&quot;".data
      else [c])).flatten⟩

/-- `f"{value:.2f}"` on a float: two-decimal fixed-point rendering (`nan`
prints as `nan`; half-way tie rounding differences with IEEE are not
exercised by the verified claims). -/
def format2 : NVal → String
  | .nan => "nan"
  | .fin q =>
      let n : ℤ := round (q * 100)
      let a := n.natAbs
      let cents := a % 100
      (if n < 0 then "-" else "") ++ Nat.repr (a / 100) ++ "." ++
        (if cents < 10 then "0" ++ Nat.repr cents else Nat.repr cents)

/- ### Evaluation context (`EvaluationContext` and its records) -/

/-- `VariableRecord` (the `expression` field receives the rendered LaTeX of
the right-hand side, exactly as `register_variable` is called). -/
structure VariableRecord where
  name : String
  expression : String
  numeric_value : Option NVal
  deriving DecidableEq, Repr

/-- A user-defined function: `FunctionRecord` together with the data its
`sympy_lambda` closes over.  The callable synthesized by `sp.lambdify`
evaluates `body` (= the RHS expression after substituting the numeric
values known at definition time) with the parameters bound, the numeric
values captured at definition time, and the user functions registered
before it (the first `capturedCount` entries of the function table). -/
structure FuncEntry where
  name : String
  params : List String
  expression : String
  body : SymExpr
  capturedNums : List (String × NVal)
  capturedCount : Nat
  deriving DecidableEq, Repr

structure ErrorEntry where
  block_id : String
  message : String
  etype : String
  deriving DecidableEq, Repr

structure LogEntry where
  block_id : String
  expression : String
  deriving DecidableEq, Repr

/-- `EvaluationContext`.  The `functions` dict is modelled as an
append-only list (registration order) with latest-per-name lookup, which
matches both dict overwriting and `values()` iteration; the symbol
registry's identity behaviour is modelled separately (see
`SymbolRegistry` below) as it never influences numeric results. -/
structure EvalContext where
  numeric_values : List (String × NVal) := []
  functions : List FuncEntry := []
  arrays : List (String × List NVal) := []
  variableRecords : List VariableRecord := []
  errors : List ErrorEntry := []
  logs : List LogEntry := []
  deriving DecidableEq, Repr

/-- `EvaluationContext.register_variable`: persist the numeric value (only
when one exists) and append a display record. -/
def registerVariable (ctx : EvalContext) (name expression : String)
    (numeric_value : Option NVal) : EvalContext :=
  { ctx with
    numeric_values :=
      match numeric_value with
      | some v => dictSet ctx.numeric_values name v
      | none => ctx.numeric_values,
    variableRecords := ctx.variableRecords ++ [⟨name, expression, numeric_value⟩] }

/-- `EvaluationContext.register_function` (dict overwrite = append plus
latest-per-name lookup). -/
def registerFunction (ctx : EvalContext) (fe : FuncEntry) : EvalContext :=
  { ctx with functions := ctx.functions ++ [fe] }

/-- `EvaluationContext.register_array` (the record's expression text is
display-only and not constrained by any claim). -/
def registerArray (ctx : EvalContext) (name : String) (values : List NVal)
    (_expression : String) : EvalContext :=
  { ctx with arrays := dictSet ctx.arrays name values }

/-- `EvaluationContext.register_error`: append-only, never raises. -/
def registerError (ctx : EvalContext) (block_id message etype : String) :
    EvalContext :=
  { ctx with errors := ctx.errors ++ [⟨block_id, message, etype⟩] }

/-- `EvaluationContext.log_run` (duration and substitution details are
render-only and not constrained by any claim). -/
def logRun (ctx : EvalContext) (block_id expression : String) : EvalContext :=
  { ctx with logs := ctx.logs ++ [⟨block_id, expression⟩] }

/-- The names bound by `math_env()` in `units.py`. -/
def mathEnvNames : List String :=
  ["sqrt", "sin", "cos", "tan", "log", "exp", "pi", "sum", "min", "max",
   "abs", "range", "linspace", "arange", "sweep", "imap", "imap2",
   "irange", "isum", "imean", "And", "Or", "Not"]

/-- A runtime Python value inside the restricted `eval` environment:
numbers (incl. `nan`), lists (registered arrays), user-function callables
(an index into the function table), and the opaque `math_env` helpers. -/
inductive PyVal where
  | nval (v : NVal)
  | listV (vs : List NVal)
  | closure (idx : Nat)
  | builtin (name : String)
  deriving DecidableEq, Repr

/-- Index of the dict-current (most recently registered) function named
`k` in the function table. -/
def funcLookupAux : List FuncEntry → String → Nat → Option Nat
  | [], _, _ => none
  | f :: t, k, i =>
      match funcLookupAux t k (i + 1) with
      | some j => some j
      | none => if f.name = k then some i else none

def funcLookup (fns : List FuncEntry) (k : String) : Option Nat :=
  funcLookupAux fns k 0

/-- Name resolution for the first `eval` attempt of `_evaluate_numeric`:
the env starts from `math_env()`, user functions overwrite it, and
`numeric_values`/`arrays` are only `setdefault`-ed in. -/
def stage1Lookup (ctx : EvalContext) (k : String) : Option PyVal :=
  match funcLookup ctx.functions k with
  | some i => some (.closure i)
  | none =>
      if mathEnvNames.contains k then some (.builtin k)
      else
        match dictGet ctx.numeric_values k with
        | some v => some (.nval v)
        | none => (dictGet ctx.arrays k).map .listV

/-- Name resolution for the retry after a `NameError`: every known numeric
binding is force-injected (`env[name] = value`), overriding functions and
builtins of the same name. -/
def retryLookup (ctx : EvalContext) (k : String) : Option PyVal :=
  match dictGet ctx.numeric_values k with
  | some v => some (.nval v)
  | none => stage1Lookup ctx k

/-- Name resolution inside a lambdified user function: parameters shadow
the closed-over env, which maps user functions (registered before the
definition) over the captured numeric values over `math_env`. -/
def closureLookup (ctx : EvalContext) (capturedCount : Nat)
    (capturedNums : List (String × NVal)) (locals : List (String × PyVal))
    (k : String) : Option PyVal :=
  match dictGet locals k with
  | some v => some v
  | none =>
      match funcLookup (ctx.functions.take capturedCount) k with
      | some i => some (.closure i)
      | none =>
          match dictGet capturedNums k with
          | some v => some (.nval v)
          | none =>
              if mathEnvNames.contains k then some (.builtin k) else none

/- ### Runtime arithmetic (Python float semantics on the fragment) -/

def nadd : NVal → NVal → NVal
  | .fin a, .fin b => .fin (a + b)
  | _, _ => .nan

def nsub : NVal → NVal → NVal
  | .fin a, .fin b => .fin (a - b)
  | _, _ => .nan

def nmul : NVal → NVal → NVal
  | .fin a, .fin b => .fin (a * b)
  | _, _ => .nan

/-- Python `/`: division by (exact) zero raises `ZeroDivisionError`; `nan`
propagates otherwise. -/
def ndiv : NVal → NVal → Except PyError NVal
  | .fin a, .fin b => if b = 0 then .error .zeroDiv else .ok (.fin (a / b))
  | .fin _, .nan => .ok .nan
  | .nan, .fin b => if b = 0 then .error .zeroDiv else .ok .nan
  | .nan, .nan => .ok .nan

/-- Python `**` on the fragment: integer exponents are exact;
`0 ** negative` raises `ZeroDivisionError`; fractional powers (generally
irrational) are outside the fragment. -/
def npow : NVal → NVal → Except PyError NVal
  | .fin a, .fin b =>
      if b.den = 1 then
        if a = 0 ∧ b.num < 0 then .error .zeroDiv
        else .ok (.fin (a ^ b.num))
      else .error (.builtinBoundary "fractional power")
  | .fin a, .nan => if a = 1 then .ok (.fin 1) else .ok .nan
  | .nan, .fin b => if b = 0 then .ok (.fin 1) else .ok .nan
  | .nan, .nan => .ok .nan

/-- Binary operations on runtime values; operations on lists or callables
(outside the fragment: no claim exercises them) raise `TypeError`. -/
def pyAdd : PyVal → PyVal → Except PyError PyVal
  | .nval a, .nval b => .ok (.nval (nadd a b))
  | _, _ => .error (.typeErr "unsupported operand types for +")

def pySub : PyVal → PyVal → Except PyError PyVal
  | .nval a, .nval b => .ok (.nval (nsub a b))
  | _, _ => .error (.typeErr "unsupported operand types for -")

def pyMul : PyVal → PyVal → Except PyError PyVal
  | .nval a, .nval b => .ok (.nval (nmul a b))
  | _, _ => .error (.typeErr "unsupported operand types for *")

def pyDiv : PyVal → PyVal → Except PyError PyVal
  | .nval a, .nval b => (ndiv a b).map .nval
  | _, _ => .error (.typeErr "unsupported operand types for /")

def pyPow : PyVal → PyVal → Except PyError PyVal
  | .nval a, .nval b => (npow a b).map .nval
  | _, _ => .error (.typeErr "unsupported operand types for **")

def pyNeg : PyVal → Except PyError PyVal
  | .nval (.fin a) => .ok (.nval (.fin (-a)))
  | .nval .nan => .ok (.nval .nan)
  | _ => .error (.typeErr "bad operand type for unary -")

mutual
/-- Python `eval` of the (normalized) expression in the restricted
environment of `_evaluate_numeric`; `retry` selects the post-`NameError`
environment with all numeric bindings force-injected. -/
def evalPy : Nat → EvalContext → Bool → PyExpr → Except PyError PyVal
  | 0, _, _, _ => .error .fuelOut
  | n + 1, ctx, retry, e =>
      match e with
      | .num q => .ok (.nval (.fin q))
      | .name s =>
          match (if retry then retryLookup ctx s else stage1Lookup ctx s) with
          | some v => .ok v
          | none => .error (.nameErr s)
      | .add a b => do pyAdd (← evalPy n ctx retry a) (← evalPy n ctx retry b)
      | .sub a b => do pySub (← evalPy n ctx retry a) (← evalPy n ctx retry b)
      | .mul a b => do pyMul (← evalPy n ctx retry a) (← evalPy n ctx retry b)
      | .div a b => do pyDiv (← evalPy n ctx retry a) (← evalPy n ctx retry b)
      | .pow a b => do pyPow (← evalPy n ctx retry a) (← evalPy n ctx retry b)
      | .neg a => do pyNeg (← evalPy n ctx retry a)
      | .call f args => do
          let fv ← evalPy n ctx retry f
          let avs ← evalPyArgs n ctx retry args
          applyCallable n ctx fv avs

def evalPyArgs : Nat → EvalContext → Bool → PyArgs → Except PyError (List PyVal)
  | 0, _, _, _ => .error .fuelOut
  | _ + 1, _, _, .nil => .ok []
  | n + 1, ctx, retry, .cons e t => do
      .ok ((← evalPy n ctx retry e) :: (← evalPyArgs n ctx retry t))

/-- Invoke a runtime callable: a user function runs its lambdified body in
its closure environment; the opaque `math_env` helpers are outside the
fragment; anything else raises `TypeError` (as does an arity mismatch). -/
def applyCallable : Nat → EvalContext → PyVal → List PyVal → Except PyError PyVal
  | 0, _, _, _ => .error .fuelOut
  | n + 1, ctx, fv, avs =>
      match fv with
      | .closure i =>
          match ctx.functions.get? i with
          | none => .error (.typeErr "stale function reference")
          | some fe =>
              if avs.length = fe.params.length then
                evalSym n ctx fe.capturedCount fe.capturedNums (fe.params.zip avs) fe.body
              else .error (.typeErr "wrong number of arguments")
      | .builtin s => .error (.builtinBoundary s)
      | _ => .error (.typeErr "object is not callable")

/-- Evaluate the lambdified body of a user function: parameters shadow the
captured environment (`closureLookup`); names unknown at call time raise
`NameError`, exactly as the generated code would. -/
def evalSym : Nat → EvalContext → Nat → List (String × NVal) →
    List (String × PyVal) → SymExpr → Except PyError PyVal
  | 0, _, _, _, _, _ => .error .fuelOut
  | n + 1, ctx, cc, cn, locals, e =>
      match e with
      | .num q => .ok (.nval (.fin q))
      | .nanC => .ok (.nval .nan)
      | .zooC => .error (.nameErr "zoo")
      | .symb s =>
          match closureLookup ctx cc cn locals s with
          | some v => .ok v
          | none => .error (.nameErr s)
      | .add a b => do
          pyAdd (← evalSym n ctx cc cn locals a) (← evalSym n ctx cc cn locals b)
      | .sub a b => do
          pySub (← evalSym n ctx cc cn locals a) (← evalSym n ctx cc cn locals b)
      | .mul a b => do
          pyMul (← evalSym n ctx cc cn locals a) (← evalSym n ctx cc cn locals b)
      | .div a b => do
          pyDiv (← evalSym n ctx cc cn locals a) (← evalSym n ctx cc cn locals b)
      | .pow a b => do
          pyPow (← evalSym n ctx cc cn locals a) (← evalSym n ctx cc cn locals b)
      | .neg a => do pyNeg (← evalSym n ctx cc cn locals a)
      | .app f args =>
          match closureLookup ctx cc cn locals f with
          | none => .error (.nameErr f)
          | some fv => do
              let avs ← evalSymArgs n ctx cc cn locals args
              applyCallable n ctx fv avs
      | .piecewise ps => evalSymPW n ctx cc cn locals ps

def evalSymArgs : Nat → EvalContext → Nat → List (String × NVal) →
    List (String × PyVal) → SymArgs → Except PyError (List PyVal)
  | 0, _, _, _, _, _ => .error .fuelOut
  | _ + 1, _, _, _, _, .nil => .ok []
  | n + 1, ctx, cc, cn, locals, .cons e t => do
      .ok ((← evalSym n ctx cc cn locals e) ::
           (← evalSymArgs n ctx cc cn locals t))

/-- Runtime `Piecewise` selection: the value of the first pair whose
condition holds; an exhausted pair list yields the `nan` sentinel. -/
def evalSymPW : Nat → EvalContext → Nat → List (String × NVal) →
    List (String × PyVal) → PWList → Except PyError PyVal
  | 0, _, _, _, _, _ => .error .fuelOut
  | _ + 1, _, _, _, _, .nil => .ok (.nval .nan)
  | n + 1, ctx, cc, cn, locals, .cons v c t => do
      if (← evalSymCondRt n ctx cc cn locals c) then
        evalSym n ctx cc cn locals v
      else
        evalSymPW n ctx cc cn locals t

/-- Runtime evaluation of a condition (IEEE comparison semantics: every
comparison with `nan` is false except `!=`, which is true). -/
def evalSymCondRt : Nat → EvalContext → Nat → List (String × NVal) →
    List (String × PyVal) → SymCond → Except PyError Bool
  | 0, _, _, _, _, _ => .error .fuelOut
  | n + 1, ctx, cc, cn, locals, c =>
      match c with
      | .triv => .ok true
      | .rel op a b => do
          let va ← evalSym n ctx cc cn locals a
          let vb ← evalSym n ctx cc cn locals b
          match va, vb with
          | .nval (.fin x), .nval (.fin y) =>
              .ok (match op with
                   | .gt => decide (y < x)
                   | .ge => decide (y ≤ x)
                   | .lt => decide (x < y)
                   | .le => decide (x ≤ y)
                   | .eq => decide (x = y)
                   | .ne => decide (x ≠ y))
          | .nval _, .nval _ => .ok (op = CmpOp.ne)
          | _, _ => .error (.typeErr "unorderable types")
      | .conj a b => do
          .ok ((← evalSymCondRt n ctx cc cn locals a) &&
               (← evalSymCondRt n ctx cc cn locals b))
end

/-- Evaluation fuel: a bound on call depth and expression size.  The
source imposes no budget, but a lambdified function can only invoke
functions registered strictly before it, so any fuel beyond the table
size is sufficient for the fragment; no verified claim approaches the
bound. -/
def EVAL_FUEL : Nat := 1000

/-- The result of `_evaluate_numeric`: a plain Python value from `eval`,
or a SymPy object from the symbolic fallback. -/
inductive EOut where
  | pv (v : PyVal)
  | se (e : SymExpr)
  deriving DecidableEq, Repr

/-- `FormulaBlock._safe_sympify`.  The conditional-detection branch
(`_parse_conditional_expr`) never fires on the embedded string fragment
(it contains no ternary/`if` syntax); the translation itself is modelled
at the AST level by `parseConditional` below.  The symbol-registry side
effects are numerically transparent and modelled separately
(`SymbolRegistry`). -/
def safeSympify (raw : String) (_ctx : EvalContext) : Except PyError SymExpr :=
  match parseExprString (normalizeExpression (pstrip raw)) with
  | .error _ => .error .syntaxErr
  | .ok pe => toSym pe

/-- The symbolic fallback of `_evaluate_numeric`: sympify, substitute all
known numeric bindings, numerically evaluate (`sp.N`; substitution with
auto-evaluation already folds numeric nodes). -/
def sympyFallback (raw : String) (ctx : EvalContext) : Except PyError EOut :=
  match safeSympify raw ctx with
  | .ok se => .ok (.se (symSubstN se ctx.numeric_values))
  | .error e => .error e

/-- `FormulaBlock._evaluate_numeric`: restricted `eval` first; on a
`SyntaxError`, straight to the SymPy fallback; on a `NameError`, one retry
with all numeric bindings injected, then the SymPy fallback; any other
exception is returned to the caller. -/
def evaluateNumeric (raw : String) (ctx : EvalContext) : Except PyError EOut :=
  let expr := caretToDstar (normalizeExpression raw)
  match parseExprString expr with
  | .error _ => sympyFallback raw ctx
  | .ok pe =>
      match evalPy EVAL_FUEL ctx false pe with
      | .ok v => .ok (.pv v)
      | .error (.nameErr _) =>
          match evalPy EVAL_FUEL ctx true pe with
          | .ok v => .ok (.pv v)
          | .error _ => sympyFallback raw ctx
      | .error e => .error e

/-- `FormulaBlock._parse_assignment`: numeric literal à la `float(rhs)`
first, then generic sympify; any exception is swallowed into `None`. -/
def parseAssignment (rhs : String) (ctx : EvalContext) : Option SymExpr :=
  let r := pstrip rhs
  match parseFloat r with
  | some q => some (.num q)
  | none =>
      match safeSympify r ctx with
      | .ok e => some e
      | .error _ => none

/-- The fields that one `FormulaBlock.evaluate` call (re)computes.
`sympy_expr = none` means the previous value is kept (only the
function-definition failure path leaves it untouched); `funcdef`/`arrayed`
record whether the function-definition/array fields were set on this run
(they are never reset by the source). -/
structure BlockOut where
  sympy_expr : Option (Option SymExpr) := none
  result : String
  latex : Option String
  numeric_value : Option NVal := none
  is_assignment : Bool := false
  variable_name : Option String := none
  funcdef : Option (String × List String) := none
  arrayed : Option (List NVal) := none
  evaluation_status : String := "ok"
  error_type : Option String := none
  error_message : Option String := none
  deriving DecidableEq, Repr

/-- `FormulaBlock._handle_evaluation_error` (assignment variant): mark the
block failed, combine the LHS with the rendered RHS, register a
`VariableRecord` with no numeric value, and append a context error. -/
def handleEvaluationError (bid : String) (e : PyError) (ctx : EvalContext)
    (exprLatex : String) (lhs : String) (sexpr : Option SymExpr) :
    BlockOut × EvalContext :=
  let ctx := registerVariable ctx lhs exprLatex none
  let ctx := registerError ctx bid (errMsg e) (errName e)
  ({ sympy_expr := some sexpr,
     result := "Error evaluating: " ++ errMsg e,
     latex := some (latexName lhs ++ " = " ++ exprLatex),
     is_assignment := true, variable_name := some lhs,
     evaluation_status := "error",
     error_type := some (errName e), error_message := some (errMsg e) }, ctx)

/-- The outer `except` of `FormulaBlock.evaluate` (lines 864-872). -/
def outerCatch (bid : String) (e : PyError) (ctx : EvalContext) :
    (BlockOut × EvalContext) :=
  let ctx := registerError ctx bid (errMsg e) (errName e)
  ({ sympy_expr := some none,
     result := "Error: " ++ errMsg e,
     latex := none,
     evaluation_status := "error",
     error_type := some (errName e), error_message := some (errMsg e) }, ctx)

/-- Array display: all values up to five, else the first three plus an
ellipsis and the count. -/
def arrayResultString (vs : List NVal) : String :=
  if vs.length ≤ 5 then
    "Array: [" ++ String.intercalate ", " (vs.map format2) ++ "]"
  else
    "Array (" ++ Nat.repr vs.length ++ " values): [" ++
      String.intercalate ", " ((vs.take 3).map format2) ++ ", ...]"

/-- Result classification of a successful numeric evaluation on the
assignment path (lines 783-824), ending with the LaTeX assembly and
`register_variable`.  The substitution branch re-evaluates the display
expression; a missing display expression reproduces the source's
`AttributeError` (caught by the outer handler). -/
def classifyAssign (bid lhs rhs : String) (sexpr : Option SymExpr)
    (out : EOut) (ctx : EvalContext) : BlockOut × EvalContext :=
  let exprLatex := match sexpr with
    | some se => symStr se
    | none => htmlEscape rhs
  let finish := fun (numeric : Option NVal) (result : String)
      (arrayed : Option (List NVal)) (ctx : EvalContext) =>
    let ctx := registerVariable ctx lhs exprLatex numeric
    ({ sympy_expr := some sexpr, result := result,
       latex := some (latexName lhs ++ " = " ++ exprLatex),
       numeric_value := numeric, is_assignment := true,
       variable_name := some lhs, arrayed := arrayed,
       evaluation_status := "ok" } : BlockOut) |> (fun o => (o, ctx))
  match out with
  | .pv (.listV vs) =>
      let ctx := registerArray ctx lhs vs rhs
      finish none (arrayResultString vs) (some vs) ctx
  | .pv (.nval v) => finish (some v) (format2 v) none ctx
  | .se e2 =>
      match exprIsRealNum e2 with
      | some q => finish (some (.fin q)) (format2 (.fin q)) none ctx
      | none =>
          match sexpr with
          | none => outerCatch bid (.attrErr "NoneType object has no attribute subs") ctx
          | some d =>
              let ev := symSubstN d ctx.numeric_values
              match exprIsRealNum ev with
              | some q => finish (some (.fin q)) (format2 (.fin q)) none ctx
              | none => finish none (symStr ev) none ctx
  | .pv _ =>
      match sexpr with
      | none => outerCatch bid (.attrErr "NoneType object has no attribute subs") ctx
      | some d =>
          let ev := symSubstN d ctx.numeric_values
          match exprIsRealNum ev with
          | some q => finish (some (.fin q)) (format2 (.fin q)) none ctx
          | none => finish none (symStr ev) none ctx

/-- Result classification on the plain-expression path (lines 842-863). -/
def classifyPlain (se : SymExpr) (out : EOut) (ctx : EvalContext) :
    BlockOut × EvalContext :=
  let mk := fun (numeric : Option NVal) (result : String) =>
    ({ sympy_expr := some (some se), result := result,
       latex := some (symStr se), numeric_value := numeric,
       evaluation_status := "ok" } : BlockOut) |> (fun o => (o, ctx))
  match out with
  | .pv (.nval v) => mk (some v) (format2 v)
  | .se e2 =>
      match exprIsRealNum e2 with
      | some q => mk (some (.fin q)) (format2 (.fin q))
      | none =>
          let ev := symSubstN se ctx.numeric_values
          mk ((exprIsRealNum ev).map .fin) (symStr ev)
  | .pv _ =>
      let ev := symSubstN se ctx.numeric_values
      mk ((exprIsRealNum ev).map .fin) (symStr ev)

/-- The plain-expression tail of `FormulaBlock.evaluate` (lines 826-863),
also reached when an assignment match has an empty left-hand side. -/
def runPlain (raw bid : String) (ctx : EvalContext) : BlockOut × EvalContext :=
  match safeSympify raw ctx with
  | .error e => outerCatch bid e ctx
  | .ok se =>
      match evaluateNumeric raw ctx with
      | .error e =>
          let ctx := registerError ctx bid (errMsg e) (errName e)
          ({ sympy_expr := some (some se),
             result := "Error evaluating: " ++ errMsg e,
             latex := some (symStr se),
             evaluation_status := "error",
             error_type := some (errName e),
             error_message := some (errMsg e) }, ctx)
      | .ok out => classifyPlain se out ctx

/-- One `FormulaBlock.evaluate` body (everything between the field resets
and the `finally` logger), as a function of the block's raw text and id. -/
def runBlockCore (raw0 bid : String) (ctx : EvalContext) :
    BlockOut × EvalContext :=
  let raw := pstrip raw0
  match assignSplit raw with
  | some (lhs, rhs) =>
      if lhs = "" then runPlain raw bid ctx
      else
        match parseFunctionDefinition lhs with
        | some (fname, params) =>
            match safeSympify rhs ctx with
            | .ok funcExpr =>
                let body := symSubstN funcExpr ctx.numeric_values
                let fe : FuncEntry :=
                  { name := fname, params := params, expression := rhs,
                    body := body, capturedNums := ctx.numeric_values,
                    capturedCount := ctx.functions.length }
                let ctx := registerFunction ctx fe
                ({ sympy_expr := some (some funcExpr),
                   result := "Function " ++ fname ++ "(" ++
                     String.intercalate ", " params ++ ") defined",
                   latex := some (latexName fname ++ "(" ++
                     String.intercalate ", " (params.map latexName) ++
                     ") = " ++ symStr funcExpr),
                   funcdef := some (fname, params),
                   evaluation_status := "ok" }, ctx)
            | .error e =>
                let ctx := registerError ctx bid (errMsg e) (errName e)
                ({ result := "Error defining function: " ++ errMsg e,
                   latex := some (latexName lhs ++ " = " ++ htmlEscape rhs),
                   funcdef := some (fname, params),
                   evaluation_status := "error",
                   error_type := some (errName e),
                   error_message := some (errMsg e) }, ctx)
        | none =>
            let sexpr := parseAssignment rhs ctx
            match evaluateNumeric rhs ctx with
            | .error e =>
                let exprLatex := match sexpr with
                  | some se => symStr se
                  | none => htmlEscape rhs
                handleEvaluationError bid e ctx exprLatex lhs sexpr
            | .ok out => classifyAssign bid lhs rhs sexpr out ctx
  | none => runPlain raw bid ctx

/-- `FormulaBlock.evaluate` including the guaranteed `finally` logger. -/
def runBlock (raw0 bid : String) (ctx : EvalContext) :
    BlockOut × EvalContext :=
  let r := runBlockCore raw0 bid ctx
  (r.1, logRun r.2 bid (pstrip raw0))

/-- Write one run's outputs back into the block: the fields reset at the
top of `evaluate` are overwritten; `is_function_def`/`function_name`/
`function_params`/`is_array`/`array_values` are only ever set (never
reset) by the source, and `sympy_expr` is kept on the one path that does
not assign it.  The wall-clock `evaluation_time_ms` is modelled as zero. -/
def applyOut (fb : FormulaBlock) (o : BlockOut) : FormulaBlock :=
  { fb with
    sympy_expr := o.sympy_expr.getD fb.sympy_expr,
    result := some o.result,
    latex := o.latex,
    numeric_value := o.numeric_value,
    is_assignment := o.is_assignment,
    variable_name := o.variable_name,
    is_function_def := o.funcdef.isSome || fb.is_function_def,
    function_name := (o.funcdef.map (·.1)).orElse (fun _ => fb.function_name),
    function_params := (o.funcdef.map (·.2)).orElse (fun _ => fb.function_params),
    is_array := o.arrayed.isSome || fb.is_array,
    array_values := o.arrayed.orElse (fun _ => fb.array_values),
    evaluation_status := o.evaluation_status,
    error_type := o.error_type,
    error_message := o.error_message,
    evaluation_time_ms := some 0 }

/-- `NotebookOptions` (`hide_logs` is a render-only switch). -/
structure NotebookOptions where
  hide_logs : Bool := false
  deriving DecidableEq, Repr

/-- `FormulaBlock.evaluate` as a block transformer. -/
def evalFB (fb : FormulaBlock) (ctx : EvalContext) :
    FormulaBlock × EvalContext :=
  let r := runBlock fb.raw fb.block_id ctx
  (applyOut fb r.1, r.2)

/-- The per-block step of `Document.evaluate`: formula blocks evaluate
against the shared context, text blocks are untouched. -/
def evalBlockStep (b : Block) (ctx : EvalContext) : Block × EvalContext :=
  match b with
  | .text tb => (.text tb, ctx)
  | .formula fb =>
      let r := evalFB fb ctx
      (.formula r.1, r.2)

/-- Evaluate a block list left-to-right through the shared context. -/
def docEvalAux : List Block → EvalContext → List Block × EvalContext
  | [], ctx => ([], ctx)
  | b :: t, ctx =>
      let r := evalBlockStep b ctx
      let rest := docEvalAux t r.2
      (r.1 :: rest.1, rest.2)

/-- `Document.evaluate`: a brand-new context, every formula block strictly
in list order, never short-circuiting; the filled context is returned
(`options` only carries the render switch and does not influence
evaluation). -/
def docEvaluate (blocks : List Block) (_options : NotebookOptions) :
    List Block × EvalContext :=
  docEvalAux blocks {}

/- ### Symbol registry object identity (`SymbolRegistry`)

Numeric results never depend on which SymPy objects the registry hands
out, so the identity bookkeeping is modelled on its own: each created
object carries an allocation serial, and module-level SymPy singletons
(`sp.sqrt`, ...) carry serial `0` (they are the same object in every
call). -/

/-- A Python object identity. -/
structure SymObj where
  name : String
  kind : String
  serial : Nat
  deriving DecidableEq, Repr

structure SymbolRegistry where
  table : List (String × SymObj) := []
  nextSerial : Nat := 1
  deriving DecidableEq, Repr

/-- `SymbolRegistry.__getitem__` with `__missing__`: a cached object is
returned as-is; a missing name allocates (a `Function` for
`linspace`/`arange`, a `Symbol` otherwise), caches and returns it.  It is
total: no lookup raises. -/
def regGet (r : SymbolRegistry) (k : String) : SymObj × SymbolRegistry :=
  match dictGet r.table k with
  | some o => (o, r)
  | none =>
      let kind := if k = "linspace" ∨ k = "arange" then "Function" else "Symbol"
      let o : SymObj := ⟨k, kind, r.nextSerial⟩
      (o, { table := dictSet r.table k o, nextSerial := r.nextSerial + 1 })

/-- The names `setdefault`-ed from `safe_locals` in `_safe_sympify`. -/
def safeLocalsNames : List String :=
  ["sqrt", "sin", "cos", "tan", "log", "exp", "pi", "E", "Integer",
   "Float", "Rational", "Symbol", "abs", "sum", "min", "max", "range",
   "linspace", "arange", "sweep", "And", "Or", "Not"]

/-- A module-level SymPy singleton (same object on every call). -/
def builtinObj (k : String) : SymObj := ⟨k, "builtin", 0⟩

/-- The seven helper names that `_safe_sympify` unconditionally rebinds to
freshly created function classes (`type('linspace', (sp.Function,), {})`,
...) on every call that parses a lettered expression. -/
def rebindNames : List String :=
  ["linspace", "arange", "sweep", "sum", "min", "max", "range"]

/-- The symbol-table side effects of one `_safe_sympify` call: on a
lettered expression, `setdefault` the SymPy helpers, add undefined
functions for registered user functions not yet present, then rebind the
seven array/aggregate helpers to fresh objects; a letterless expression
leaves the registry untouched. -/
def safeSympifyEffects (expr : String) (funcNames : List String)
    (r : SymbolRegistry) : SymbolRegistry :=
  if expr.data.any Char.isAlpha then
    let r1 : SymbolRegistry :=
      { r with table := (safeLocalsNames.foldl
          (fun t k => dictSetdefault t k (builtinObj k)) r.table) }
    let r2 := funcNames.foldl
      (fun (r : SymbolRegistry) fn =>
        if dictHas r.table fn then r
        else { table := dictSet r.table fn ⟨fn, "Function", r.nextSerial⟩,
               nextSerial := r.nextSerial + 1 }) r1
    rebindNames.foldl
      (fun (r : SymbolRegistry) k =>
        { table := dictSet r.table k ⟨k, "Function", r.nextSerial⟩,
          nextSerial := r.nextSerial + 1 }) r2
  else r

/- ### Conditional translation (`_parse_conditional_expr`)

`ast.parse` is the host parser; its output is embedded as `PyAst`/`PyStmt`
below and the translation into `Piecewise` is transcribed on it.  Leaf
nodes are re-sympified from their source segment in the original; on the
arithmetic fragment this equals the structural conversion `arithToSym`. -/

mutual
/-- Python AST expression nodes reachable by the conditional translator. -/
inductive PyAst where
  | constNum (q : ℚ)
  | name (s : String)
  | add (a b : PyAst)
  | sub (a b : PyAst)
  | mul (a b : PyAst)
  | div (a b : PyAst)
  | ifExp (test body orelse : PyAst)
  | compare (left : PyAst) (pairs : CmpList)
  deriving DecidableEq, Repr

/-- The non-empty `(op, comparator)` chain of an `ast.Compare`. -/
inductive CmpList where
  | one (op : CmpOp) (c : PyAst)
  | cons (op : CmpOp) (c : PyAst) (t : CmpList)
  deriving DecidableEq, Repr
end

mutual
/-- A Python statement (`ast.Expr` or `ast.If`). -/
inductive PyStmt where
  | exprStmt (e : PyAst)
  | ifStmt (test : PyAst) (body : PyStmtList) (orelse : PyStmtList)
  deriving DecidableEq, Repr

inductive PyStmtList where
  | nil
  | cons (s : PyStmt) (t : PyStmtList)
  deriving DecidableEq, Repr
end

mutual
/-- `_convert_expr`: an `IfExp` becomes a two-pair `Piecewise` (the test
must convert to a Boolean condition — a non-Boolean test makes SymPy
raise, modelled as `none`); a `Compare` becomes the relation chain; any
other node is re-sympified from source, which on the arithmetic fragment
is the structural conversion. -/
def convertExpr : PyAst → Option (Sum SymExpr SymCond)
  | .ifExp t b o =>
      match convertExpr t, convertExpr b, convertExpr o with
      | some (.inr tc), some (.inl bv), some (.inl ov) =>
          some (.inl (.piecewise (.cons bv tc (.cons ov .triv .nil))))
      | _, _, _ => none
  | .compare l pairs =>
      match arithToSym l with
      | none => none
      | some ls => (buildRels ls pairs).map .inr
  | e => (arithToSym e).map .inl

/-- The comparison-chain loop of `_convert_expr`: each operator relates
the previous comparator to the next; multiple relations are conjoined
(`sp.And` n-ary flattening is represented as nested conjunction, with the
same truth conditions). -/
def buildRels : SymExpr → CmpList → Option SymCond
  | left, .one op c => (arithToSym c).map (fun ce => .rel op left ce)
  | left, .cons op c t => do
      let ce ← arithToSym c
      let rest ← buildRels ce t
      some (.conj (.rel op left ce) rest)

/-- Re-sympification of a leaf node's source segment, on the arithmetic
fragment (nodes outside it are not conforming input). -/
def arithToSym : PyAst → Option SymExpr
  | .constNum q => some (.num q)
  | .name s => some (.symb s)
  | .add a b => do pure (symAddE (← arithToSym a) (← arithToSym b))
  | .sub a b => do pure (symSubE (← arithToSym a) (← arithToSym b))
  | .mul a b => do pure (symMulE (← arithToSym a) (← arithToSym b))
  | .div a b => do pure (symDivE (← arithToSym a) (← arithToSym b))
  | _ => none
end

/-- `_extract_branch_expr`: a branch body must be a single expression
statement converting to a value. -/
def extractBranchExpr : PyStmtList → Option SymExpr
  | .cons (.exprStmt e) .nil =>
      match convertExpr e with
      | some (.inl v) => some v
      | _ => none
  | _ => none

/-- A test expression must convert to a Boolean condition. -/
def convertTest (t : PyAst) : Option SymCond :=
  match convertExpr t with
  | some (.inr c) => some c
  | _ => none

mutual
/-- The branch-collection loop of `_parse_conditional_expr`: each `if`
contributes its (body, test) pair and the walk continues through the
`orelse`. -/
def parseIfStmt : PyStmt → Option PWList
  | .exprStmt _ => none
  | .ifStmt test body orelse => do
      let bv ← extractBranchExpr body
      let tc ← convertTest test
      let rest ← parseOrelseChain orelse
      pure (.cons bv tc rest)

/-- The `orelse` step of the loop: a single nested `If` continues the
`elif` chain; an empty `orelse` appends the `(nan, True)` fallback; any
other `orelse` is the `else` body, appended with an always-true
condition. -/
def parseOrelseChain : PyStmtList → Option PWList
  | .nil => some (.cons .nanC .triv .nil)
  | .cons (.ifStmt t2 b2 o2) .nil => parseIfStmt (.ifStmt t2 b2 o2)
  | orelse => (extractBranchExpr orelse).map fun ov => .cons ov .triv .nil
end

/-- `_parse_conditional_expr` after `ast.parse`: exactly one statement;
an expression statement is translated only when it is a ternary; an `if`
statement is translated through the branch loop. -/
def parseConditional : PyStmtList → Option SymExpr
  | .cons stmt .nil =>
      match stmt with
      | .exprStmt e =>
          match e with
          | .ifExp _ _ _ =>
              match convertExpr e with
              | some (.inl v) => some v
              | _ => none
          | _ => none
      | .ifStmt t b o => (parseIfStmt (.ifStmt t b o)).map .piecewise
  | _ => none

mutual
/-- Static numeric evaluation of a translated expression under a total
binding environment (SymPy's evaluation of the `Piecewise` under current
bindings; non-finite intermediate results collapse to the `nan`
sentinel, and unresolved applications are outside the fragment). -/
def symEvalT (env : String → ℚ) : SymExpr → NVal
  | .num q => .fin q
  | .nanC => .nan
  | .zooC => .nan
  | .symb s => .fin (env s)
  | .add a b => nadd (symEvalT env a) (symEvalT env b)
  | .sub a b => nsub (symEvalT env a) (symEvalT env b)
  | .mul a b => nmul (symEvalT env a) (symEvalT env b)
  | .div a b =>
      match symEvalT env a, symEvalT env b with
      | .fin p, .fin q => if q = 0 then .nan else .fin (p / q)
      | _, _ => .nan
  | .pow a b =>
      match symEvalT env a, symEvalT env b with
      | .fin p, .fin q =>
          if q.den = 1 then
            if p = 0 ∧ q.num < 0 then .nan else .fin (p ^ q.num)
          else .nan
      | _, _ => .nan
  | .neg a =>
      match symEvalT env a with
      | .fin p => .fin (-p)
      | .nan => .nan
  | .app _ _ => .nan
  | .piecewise ps => pwEvalT env ps

/-- Condition evaluation (IEEE semantics on `nan`). -/
def condEvalT (env : String → ℚ) : SymCond → Bool
  | .triv => true
  | .rel op a b =>
      match symEvalT env a, symEvalT env b with
      | .fin x, .fin y =>
          (match op with
           | .gt => decide (y < x)
           | .ge => decide (y ≤ x)
           | .lt => decide (x < y)
           | .le => decide (x ≤ y)
           | .eq => decide (x = y)
           | .ne => decide (x ≠ y))
      | _, _ => op = CmpOp.ne
  | .conj a b => condEvalT env a && condEvalT env b

/-- `Piecewise` selection: the value of the first pair whose condition is
true; an exhausted list resolves to the `nan` sentinel. -/
def pwEvalT (env : String → ℚ) : PWList → NVal
  | .nil => .nan
  | .cons v c t => if condEvalT env c then symEvalT env v else pwEvalT env t
end

/- #### The conforming conditional sub-language (claim C7)

An inline ternary or an `if/elif/else` whose branch bodies are single
arithmetic expressions and whose tests are comparisons. -/

/-- Arithmetic branch bodies and comparison operands. -/
inductive AX where
  | num (q : ℚ)
  | var (s : String)
  | add (a b : AX)
  | sub (a b : AX)
  | mul (a b : AX)
  deriving DecidableEq, Repr

/-- A comparison test. -/
structure CTest where
  left : AX
  op : CmpOp
  right : AX
  deriving DecidableEq, Repr

/-- One `if`/`elif` branch. -/
structure CBranch where
  test : CTest
  body : AX
  deriving DecidableEq, Repr

/-- A conforming conditional: at least one branch, optional `else`. -/
structure CondChain where
  first : CBranch
  rest : List CBranch
  els : Option AX
  deriving DecidableEq, Repr

/-- Embed arithmetic into the AST. -/
def axToAst : AX → PyAst
  | .num q => .constNum q
  | .var s => .name s
  | .add a b => .add (axToAst a) (axToAst b)
  | .sub a b => .sub (axToAst a) (axToAst b)
  | .mul a b => .mul (axToAst a) (axToAst b)

def testToAst (t : CTest) : PyAst :=
  .compare (axToAst t.left) (.one t.op (axToAst t.right))

/-- The `if/elif/else` statement of a conforming chain. -/
def chainStmt : CBranch → List CBranch → Option AX → PyStmt
  | b, rest, els =>
      .ifStmt (testToAst b.test) (.cons (.exprStmt (axToAst b.body)) .nil)
        (match rest with
         | r :: t => .cons (chainStmt r t els) .nil
         | [] =>
             match els with
             | some e => .cons (.exprStmt (axToAst e)) .nil
             | none => .nil)

/-- The module body handed to `_parse_conditional_expr`. -/
def chainToStmts (c : CondChain) : PyStmtList :=
  .cons (chainStmt c.first c.rest c.els) .nil

/-- Expected SymPy image of an arithmetic body. -/
def axToSym : AX → SymExpr
  | .num q => .num q
  | .var s => .symb s
  | .add a b => symAddE (axToSym a) (axToSym b)
  | .sub a b => symSubE (axToSym a) (axToSym b)
  | .mul a b => symMulE (axToSym a) (axToSym b)

def testToCond (t : CTest) : SymCond :=
  .rel t.op (axToSym t.left) (axToSym t.right)

/-- Expected translated pair list: the branches in order, then the `else`
value (or `nan`) under an always-true condition. -/
def chainPW : CBranch → List CBranch → Option AX → PWList
  | b, rest, els =>
      .cons (axToSym b.body) (testToCond b.test)
        (match rest with
         | r :: t => chainPW r t els
         | [] =>
             match els with
             | some e => .cons (axToSym e) .triv .nil
             | none => .cons .nanC .triv .nil)

/-- Source-level semantics of an arithmetic body (division by zero
collapses to the sentinel, as in `symEvalT`). -/
def axEval (env : String → ℚ) : AX → NVal
  | .num q => .fin q
  | .var s => .fin (env s)
  | .add a b => nadd (axEval env a) (axEval env b)
  | .sub a b => nsub (axEval env a) (axEval env b)
  | .mul a b => nmul (axEval env a) (axEval env b)

/-- Source-level truth of a comparison test. -/
def testEval (env : String → ℚ) (t : CTest) : Bool :=
  match axEval env t.left, axEval env t.right with
  | .fin x, .fin y =>
      (match t.op with
       | .gt => decide (y < x)
       | .ge => decide (y ≤ x)
       | .lt => decide (x < y)
       | .le => decide (x ≤ y)
       | .eq => decide (x = y)
       | .ne => decide (x ≠ y))
  | _, _ => t.op = CmpOp.ne

/-- Source-level semantics of the conditional: the first branch whose
test holds, then the `else` body, then the `nan` sentinel. -/
def chainSem (env : String → ℚ) : CBranch → List CBranch → Option AX → NVal
  | b, rest, els =>
      if testEval env b.test then axEval env b.body
      else
        match rest with
        | r :: t => chainSem env r t els
        | [] =>
            match els with
            | some e => axEval env e
            | none => .nan

/-- Last condition of a non-empty pair list. -/
def pwLastCond : PWList → SymCond
  | .nil => .triv
  | .cons _ c .nil => c
  | .cons _ _ (.cons v c t) => pwLastCond (.cons v c t)

namespace UnitsSpec

/-- Modelled from the spec: the physical-unit engine (unit literals,
target-unit conversion and compaction) is absent from `src/` — only
`tests/test_units_handling.py` and the spec reference `block.units` and
the unit-aware `NotebookOptions` fields.  The definitions in this
namespace follow §3/§4.3/§6/§8 of the spec: a quantity is a magnitude
with a physical unit (SI dimension vector over metre/kilogram/second);
`<number> <unit-text>` builds a quantity; compaction normalizes to the
conventional engineering form (the spec names `kN*m` as the canonical
compact form of `3500 N*m`); the displayed magnitude is formatted to two
decimals and paired with the canonical unit text. -/
structure UnitDim where
  m : ℤ
  kg : ℤ
  s : ℤ
  deriving DecidableEq, Repr

def dimMul (a b : UnitDim) : UnitDim := ⟨a.m + b.m, a.kg + b.kg, a.s + b.s⟩
def dimDiv (a b : UnitDim) : UnitDim := ⟨a.m - b.m, a.kg - b.kg, a.s - b.s⟩

/-- Base unit atoms: SI scale factor and dimension. -/
def unitAtoms : List (String × ℚ × UnitDim) :=
  [("m", 1, ⟨1, 0, 0⟩), ("mm", 1/1000, ⟨1, 0, 0⟩),
   ("s", 1, ⟨0, 0, 1⟩), ("kg", 1, ⟨0, 1, 0⟩),
   ("N", 1, ⟨1, 1, -2⟩), ("kN", 1000, ⟨1, 1, -2⟩),
   ("MN", 1000000, ⟨1, 1, -2⟩),
   ("Pa", 1, ⟨-1, 1, -2⟩), ("kPa", 1000, ⟨-1, 1, -2⟩),
   ("MPa", 1000000, ⟨-1, 1, -2⟩)]

def atomLookup : List (String × ℚ × UnitDim) → String → Option (ℚ × UnitDim)
  | [], _ => none
  | (k, v) :: t, s => if k = s then some v else atomLookup t s

/-- Parse a unit text: atoms joined by `*` and `/`, folded left to right. -/
def parseUnitAux : (ℚ × UnitDim) → List (Bool × String) → Option (ℚ × UnitDim)
  | acc, [] => some acc
  | (sc, d), (isDivision, a) :: t =>
      match atomLookup unitAtoms (Notebook.pstrip a) with
      | none => none
      | some (sc2, d2) =>
          if isDivision then parseUnitAux (sc / sc2, dimDiv d d2) t
          else parseUnitAux (sc * sc2, dimMul d d2) t

/-- Split a unit text at `*`/`/` into signed atoms. -/
def splitUnit (cs : List Char) (cur : List Char) (isDivision : Bool) :
    List (Bool × String) :=
  match cs with
  | [] => [(isDivision, ⟨cur.reverse⟩)]
  | c :: t =>
      if c = '*' then (isDivision, ⟨cur.reverse⟩) :: splitUnit t [] false
      else if c = '/' then (isDivision, ⟨cur.reverse⟩) :: splitUnit t [] true
      else splitUnit t (c :: cur) isDivision

def parseUnit (s : String) : Option (ℚ × UnitDim) :=
  match splitUnit (Notebook.stripChars s.data) [] false with
  | [] => none
  | (_, a) :: t =>
      match atomLookup unitAtoms (Notebook.pstrip a) with
      | none => none
      | some acc => parseUnitAux acc t

/-- Conventional engineering forms per dimension (the spec's
pressure / force-per-length / moment idioms). -/
def preferredUnits (d : UnitDim) : List (String × ℚ) :=
  if d = ⟨2, 1, -2⟩ then [("N*m", 1), ("kN*m", 1000), ("MN*m", 1000000)]
  else if d = ⟨-1, 1, -2⟩ then [("Pa", 1), ("kPa", 1000), ("MPa", 1000000)]
  else if d = ⟨0, 1, -2⟩ then [("N/m", 1), ("kN/m", 1000)]
  else if d = ⟨1, 1, -2⟩ then [("N", 1), ("kN", 1000), ("MN", 1000000)]
  else []

/-- Pick the largest conventional scale not exceeding the magnitude, so
the compacted mantissa lands in the readable range. -/
def pickUnit (mag : ℚ) : List (String × ℚ) → Option (String × ℚ)
  | [] => none
  | (t, sc) :: rest =>
      match pickUnit mag rest with
      | some r => some r
      | none => if sc ≤ |mag| then some (t, sc) else none

/-- Compaction: convert the SI magnitude to the conventional unit of its
dimension (falling back to the original text when no convention or no
fitting scale exists). -/
def compact (si : ℚ) (d : UnitDim) (origText : String) (origScale : ℚ) :
    ℚ × String :=
  match pickUnit si (preferredUnits d) with
  | some (t, sc) => (si / sc, t)
  | none => (si / origScale, origText)

/-- Evaluation of a unit-literal assignment `name = <number> <unit-text>`
under unit-awareness: the quantity is built, optionally converted to the
target unit (an unknown target is a classified error, `none` here), then
compacted unless disabled; the result pairs the two-decimal magnitude
with the canonical unit text.  Returns
`(numeric_value, units, result)`. -/
structure UnitOptions where
  target_unit : Option String := none
  simplify_units : Bool := true
  deriving DecidableEq, Repr

def splitFirstSpace (cs : List Char) (acc : List Char) :
    Option (List Char × List Char) :=
  match cs with
  | [] => none
  | c :: t => if c = ' ' then some (acc.reverse, t) else splitFirstSpace t (c :: acc)

def unitAssign (raw : String) (opts : UnitOptions) :
    Option (ℚ × String × String) := do
  let (lhs, rhs) ← Notebook.assignSplit (Notebook.pstrip raw)
  if lhs = "" then none
  else do
    let (numPart, unitPart) ← splitFirstSpace (Notebook.stripChars rhs.data) []
    let v ← Notebook.parseFloat ⟨numPart⟩
    let (sc, d) ← parseUnit ⟨unitPart⟩
    let si := v * sc
    match opts.target_unit with
    | some t => do
        let (tsc, td) ← parseUnit t
        if td = d then
          let mag := si / tsc
          pure (mag, Notebook.pstrip t, Notebook.format2 (.fin mag) ++ " " ++ Notebook.pstrip t)
        else none
    | none =>
        let (mag, txt) :=
          if opts.simplify_units then compact si d (Notebook.pstrip ⟨unitPart⟩) sc
          else (v, Notebook.pstrip ⟨unitPart⟩)
        pure (mag, txt, Notebook.format2 (.fin mag) ++ " " ++ txt)

end UnitsSpec

/-- Status, numeric value and error type of an evaluated formula block
(used to state the claims compactly). -/
def statusNumErr : Option Block → Option (String × Option NVal × Option String)
  | some (.formula fb) => some (fb.evaluation_status, fb.numeric_value, fb.error_type)
  | _ => none

/-- The three fields that the determinism property compares. -/
def blockOutputs : Block → Option NVal × Option String × Option String
  | .text _ => (none, none, none)
  | .formula fb => (fb.numeric_value, fb.result, fb.latex)

/- ## Theorems -/

theorem roundTrip_formula (fb : FormulaBlock) :
    roundTrip (.formula fb) = .formula
      { raw := fb.raw, block_id := fb.block_id, result := fb.result,
        latex := fb.latex, numeric_value := fb.numeric_value,
        is_assignment := fb.is_assignment,
        variable_name := fb.variable_name } := by
  simp [roundTrip, blockToDict, blockFromDict]

theorem roundTrip_text (tb : TextBlock) :
    roundTrip (.text tb) = .text tb := by
  simp [roundTrip, blockToDict, blockFromDict]

theorem roundTrip_idem (b : Block) :
    roundTrip (roundTrip b) = roundTrip b := by
  cases b with
  | text tb => rw [roundTrip_text, roundTrip_text]
  | formula fb => rw [roundTrip_formula, roundTrip_formula]

theorem map_roundTrip_idem (l : List Block) :
    (l.map roundTrip).map roundTrip = l.map roundTrip := by
  rw [List.map_map]
  exact List.map_congr_left (fun b _ => roundTrip_idem b)

theorem map_roundTrip_stable (l : List Block)
    (h : ∀ x ∈ l, roundTrip x = x) : l.map roundTrip = l := by
  calc l.map roundTrip = l.map id := List.map_congr_left h
  _ = l := List.map_id l

theorem addBlock_no_evict (d : Document) (b : Block)
    (h : d.undo_stack.length < HISTORY_LIMIT) :
    addBlock d b =
      ⟨d.blocks ++ [b], (d.blocks.map roundTrip) :: d.undo_stack, []⟩ := by
  have hno : ¬ (HISTORY_LIMIT < d.undo_stack.length + 1) := by omega
  simp [addBlock, pushHistory, hno]

theorem undo_addBlock (d : Document) (b : Block) :
    (undo (addBlock d b)).2 = true ∧
    (undo (addBlock d b)).1.blocks = d.blocks.map roundTrip := by
  cases hu : d.undo_stack with
  | nil =>
      simp [addBlock, pushHistory, undo, hu, HISTORY_LIMIT]
  | cons x t =>
      by_cases h : HISTORY_LIMIT < t.length + 1 + 1
      · simp [addBlock, pushHistory, undo, hu, h, List.dropLast]
      · simp [addBlock, pushHistory, undo, hu, h]

theorem prefixSnaps_cons (blocks : List Block) (b : Block) (bs : List Block) :
    prefixSnaps blocks (b :: bs) =
      ((blocks ++ [b]).map roundTrip) :: prefixSnaps (blocks ++ [b]) bs := by
  simp [prefixSnaps, List.range_succ_eq_map, List.map_map, Function.comp,
        List.take_succ_cons, List.append_assoc]

theorem undoN_succ (X : Document) (m : Nat) :
    undoN X (m + 1) =
      ((undo (undoN X m).1).1, (undoN X m).2 && (undo (undoN X m).1).2) := rfl

theorem undoN_addAll : ∀ (bs : List Block) (d : Document), bs ≠ [] →
    d.undo_stack.length + bs.length ≤ HISTORY_LIMIT →
    undoN (addAll d bs) bs.length =
      ({ blocks := d.blocks.map roundTrip, undo_stack := d.undo_stack,
         redo_stack := prefixSnaps d.blocks bs }, true) := by
  intro bs
  induction bs with
  | nil => intro d h _; exact absurd rfl h
  | cons b bs ih =>
    intro d _ hlen
    have hlt : d.undo_stack.length < HISTORY_LIMIT := by
      simp only [List.length_cons] at hlen; omega
    have hadd := addBlock_no_evict d b hlt
    cases bs with
    | nil =>
        rw [show addAll d [b] = addBlock d b from rfl]
        rw [show ([b] : List Block).length = 0 + 1 from rfl, undoN_succ]
        simp [undoN, hadd, undo, prefixSnaps]
    | cons b2 t =>
        have hlen2 : (addBlock d b).undo_stack.length + (b2 :: t).length ≤
            HISTORY_LIMIT := by
          rw [hadd]
          simp only [List.length_cons] at hlen ⊢
          omega
        have ihv := ih (addBlock d b) (by simp) hlen2
        rw [show addAll d (b :: b2 :: t) = addAll (addBlock d b) (b2 :: t) from rfl]
        rw [show (b :: b2 :: t).length = (b2 :: t).length + 1 from rfl, undoN_succ, ihv]
        rw [hadd]
        simp [undo, map_roundTrip_idem, prefixSnaps_cons, Function.comp,
              roundTrip_idem]

theorem redo_addBlock (d : Document) (b : Block) :
    redo (addBlock d b) = (addBlock d b, false) := rfl

/-- C4 (counterexample): starting from an empty document, two `add_block`
calls followed by two `undo()` calls and one `redo()` leave the block list
at the one-block state — not the two-block pre-undo list the claim
demands (`redo` re-applies only the most recently undone step). -/
theorem claim_C4_counterexample :
    (redo (undoN (addAll ⟨[], [], []⟩
        [Block.text ⟨"one", "t1"⟩, Block.text ⟨"two", "t2"⟩]) 2).1).2 = true ∧
    (redo (undoN (addAll ⟨[], [], []⟩
        [Block.text ⟨"one", "t1"⟩, Block.text ⟨"two", "t2"⟩]) 2).1).1.blocks =
      [Block.text ⟨"one", "t1"⟩] ∧
    (redo (undoN (addAll ⟨[], [], []⟩
        [Block.text ⟨"one", "t1"⟩, Block.text ⟨"two", "t2"⟩]) 2).1).1.blocks ≠
      [Block.text ⟨"one", "t1"⟩, Block.text ⟨"two", "t2"⟩] := by
  decide

/-- C4 (amended): for `1 ≤ N ≤ HISTORY_LIMIT` additions of
serialization-stable blocks onto a fresh document of stable blocks,
`N` undos restore the initial list (all succeeding); one subsequent
`redo()` restores the list as it was after the first `add_block` (`N`
redos, not one, would restore the full pre-undo list); and an `add_block`
after the undos clears the redo stack, so a following `redo()` returns
`false` and changes nothing. -/
theorem claim_C4_amended (init bs : List Block)
    (hne : bs ≠ []) (hlen : bs.length ≤ HISTORY_LIMIT)
    (hstable : ∀ x ∈ init ++ bs, roundTrip x = x) :
    (undoN (addAll ⟨init, [], []⟩ bs) bs.length).2 = true ∧
    (undoN (addAll ⟨init, [], []⟩ bs) bs.length).1.blocks = init ∧
    (redo (undoN (addAll ⟨init, [], []⟩ bs) bs.length).1).2 = true ∧
    (redo (undoN (addAll ⟨init, [], []⟩ bs) bs.length).1).1.blocks =
      init ++ bs.take 1 ∧
    ∀ b', redo (addBlock (undoN (addAll ⟨init, [], []⟩ bs) bs.length).1 b') =
      (addBlock (undoN (addAll ⟨init, [], []⟩ bs) bs.length).1 b', false) := by
  cases bs with
  | nil => exact absurd rfl hne
  | cons b t =>
    have hsi : ∀ x ∈ init, roundTrip x = x := fun x hx => hstable x (by simp [hx])
    have hsb1 : roundTrip b = b := hstable b (by simp)
    have h := undoN_addAll (b :: t) ⟨init, [], []⟩ (by simp) (by simpa using hlen)
    rw [h]
    refine ⟨rfl, ?_, ?_, ?_, ?_⟩
    · simpa using map_roundTrip_stable init hsi
    · simp [prefixSnaps_cons, redo]
    · simp only [prefixSnaps_cons, redo, List.take_succ_cons, List.take_zero]
      rw [List.map_append]
      simp [map_roundTrip_stable init hsi, hsb1]
    · intro b'
      exact redo_addBlock _ b'

theorem claim_C4_witness :
    (undoN (addAll ⟨[], [], []⟩
        [Block.text ⟨"a", "1"⟩, Block.text ⟨"b", "2"⟩]) 2).2 = true ∧
    (undoN (addAll ⟨[], [], []⟩
        [Block.text ⟨"a", "1"⟩, Block.text ⟨"b", "2"⟩]) 2).1.blocks = [] ∧
    (redo (undoN (addAll ⟨[], [], []⟩
        [Block.text ⟨"a", "1"⟩, Block.text ⟨"b", "2"⟩]) 2).1).2 = true ∧
    (redo (undoN (addAll ⟨[], [], []⟩
        [Block.text ⟨"a", "1"⟩, Block.text ⟨"b", "2"⟩]) 2).1).1.blocks =
      [] ++ [Block.text ⟨"a", "1"⟩, Block.text ⟨"b", "2"⟩].take 1 ∧
    ∀ b', redo (addBlock (undoN (addAll ⟨[], [], []⟩
        [Block.text ⟨"a", "1"⟩, Block.text ⟨"b", "2"⟩]) 2).1 b') =
      (addBlock (undoN (addAll ⟨[], [], []⟩
        [Block.text ⟨"a", "1"⟩, Block.text ⟨"b", "2"⟩]) 2).1 b', false) :=
  claim_C4_amended [] [Block.text ⟨"a", "1"⟩, Block.text ⟨"b", "2"⟩]
    (by decide) (by decide) (by decide)

/-- C10: a history snapshot is a serialization round-trip, not a full
copy: for a `FormulaBlock` only `type`, `raw`, `id`, `result`, `latex`,
`numeric_value`, `is_assignment` and `variable_name` survive, every other
field returning to its dataclass default; and `undo()` after an
`add_block` restores exactly the round-tripped pre-mutation list. -/
theorem claim_C10_snapshot_roundtrip :
    (∀ fb : FormulaBlock,
      roundTrip (Block.formula fb) = Block.formula
        { raw := fb.raw, block_id := fb.block_id, result := fb.result,
          latex := fb.latex, numeric_value := fb.numeric_value,
          is_assignment := fb.is_assignment,
          variable_name := fb.variable_name }) ∧
    (∀ (d : Document) (b : Block),
      (undo (addBlock d b)).2 = true ∧
      (undo (addBlock d b)).1.blocks = d.blocks.map roundTrip) :=
  ⟨roundTrip_formula, undo_addBlock⟩

theorem applyOut_raw (fb : FormulaBlock) (o : BlockOut) :
    (applyOut fb o).raw = fb.raw := rfl

theorem applyOut_id (fb : FormulaBlock) (o : BlockOut) :
    (applyOut fb o).block_id = fb.block_id := rfl

theorem blockOutputs_applyOut (fb : FormulaBlock) (o : BlockOut) :
    blockOutputs (.formula (applyOut fb o)) =
      (o.numeric_value, some o.result, o.latex) := rfl

theorem evalBlockStep_text (tb : TextBlock) (ctx : EvalContext) :
    evalBlockStep (.text tb) ctx = (.text tb, ctx) := rfl

theorem evalBlockStep_formula (fb : FormulaBlock) (ctx : EvalContext) :
    evalBlockStep (.formula fb) ctx =
      (.formula (applyOut fb (runBlock fb.raw fb.block_id ctx).1),
       (runBlock fb.raw fb.block_id ctx).2) := rfl

/-- One evaluation pass reads only each block's `raw` and `block_id`
(which it never changes), so re-running the pass on its own output with
the same fresh context reproduces every block's outputs and the final
context. -/
theorem docEvalAux_twice : ∀ (bs : List Block) (ctx : EvalContext),
    (docEvalAux (docEvalAux bs ctx).1 ctx).1.map blockOutputs =
      (docEvalAux bs ctx).1.map blockOutputs ∧
    (docEvalAux (docEvalAux bs ctx).1 ctx).2 = (docEvalAux bs ctx).2 := by
  intro bs
  induction bs with
  | nil => intro ctx; exact ⟨rfl, rfl⟩
  | cons b t ih =>
    intro ctx
    cases b with
    | text tb =>
        have ht := ih ctx
        simp only [docEvalAux, evalBlockStep_text]
        exact ⟨by simp only [List.map_cons, ht.1], ht.2⟩
    | formula fb =>
        have ht := ih ((runBlock fb.raw fb.block_id ctx).2)
        simp only [docEvalAux, evalBlockStep_formula, applyOut_raw, applyOut_id]
        exact ⟨by simp only [List.map_cons, blockOutputs_applyOut, ht.1], ht.2⟩

/-- C9: document evaluation is deterministic — evaluating an unchanged
document a second time with identical options yields the same
`numeric_value`, `result` and `latex` on every block. -/
theorem claim_C9_determinism (blocks : List Block) (opts : NotebookOptions) :
    (docEvaluate (docEvaluate blocks opts).1 opts).1.map blockOutputs =
      (docEvaluate blocks opts).1.map blockOutputs := by
  simpa [docEvaluate] using (docEvalAux_twice blocks {}).1

set_option maxRecDepth 10000 in
/-- C1: evaluating `[X = 5 / 0, Y = 2 + 2]` completes, registers exactly
one context error (for block X, a `ZeroDivisionError`), marks X failed,
and still evaluates Y to `4.0` — a block's failure neither aborts the
pass nor affects later blocks. -/
theorem claim_C1_failure_isolation :
    (docEvaluate [Block.formula { raw := "X = 5 / 0", block_id := "b1" },
                  Block.formula { raw := "Y = 2 + 2", block_id := "b2" }]
        {}).2.errors =
      [⟨"b1", "division by zero", "ZeroDivisionError"⟩] ∧
    statusNumErr (docEvaluate
        [Block.formula { raw := "X = 5 / 0", block_id := "b1" },
         Block.formula { raw := "Y = 2 + 2", block_id := "b2" }] {}).1.head? =
      some ("error", none, some "ZeroDivisionError") ∧
    statusNumErr (docEvaluate
        [Block.formula { raw := "X = 5 / 0", block_id := "b1" },
         Block.formula { raw := "Y = 2 + 2", block_id := "b2" }] {}).1.getLast? =
      some ("ok", some (.fin 4), none) := by
  refine ⟨?_, ?_, ?_⟩ <;> with_unfolding_all rfl

set_option maxRecDepth 10000 in
/-- C8: user functions compose across blocks — after `f(x) = x**2` and
`g(x) = f(x) + 10`, the block `g(3)` evaluates to `19.0` through the
synthesized callables. -/
theorem claim_C8_function_composition :
    statusNumErr (docEvaluate
        [Block.formula { raw := "f(x) = x**2", block_id := "b1" },
         Block.formula { raw := "g(x) = f(x) + 10", block_id := "b2" },
         Block.formula { raw := "g(3)", block_id := "b3" }] {}).1.getLast? =
      some ("ok", some (.fin 19), none) := by
  with_unfolding_all rfl

set_option maxRecDepth 10000 in
/-- C3 (counterexample): in `[A + 1, A = 2]` the first block references
`A`, which is defined only by the later block; the code leaves that block
with `evaluation_status = "ok"`, no numeric value, no `error_type` and no
context error — not the `UnknownIdentifier` error the claim requires
(the numeric fast path falls back to a symbolic result instead; no
`UnknownIdentifier` error type exists anywhere in the code). -/
theorem claim_C3_counterexample :
    statusNumErr (docEvaluate
        [Block.formula { raw := "A + 1", block_id := "r" },
         Block.formula { raw := "A = 2", block_id := "d" }] {}).1.head? =
      some ("ok", none, none) ∧
    (docEvaluate
        [Block.formula { raw := "A + 1", block_id := "r" },
         Block.formula { raw := "A = 2", block_id := "d" }] {}).2.errors = [] := by
  refine ⟨?_, ?_⟩ <;> with_unfolding_all rfl

set_option maxRecDepth 10000 in
/-- C2 (spec-modelled): `"M = 3500 N*m"` evaluates to the compacted
quantity — displayed magnitude `3.5` (not the raw `3500`) with canonical
unit text `kN*m`, which also accompanies the two-decimal result string. -/
theorem claim_C2_unit_compaction :
    UnitsSpec.unitAssign "M = 3500 N*m" {} =
      some (7/2, "kN*m", "3.50 kN*m") := by
  with_unfolding_all rfl

/-- C5 (counterexample): a `linspace` lookup, followed by one
`_safe_sympify` pass over a lettered expression, followed by a second
`linspace` lookup returns a different object: the pipeline rebinds the
seven array/aggregate helper names to fresh function classes on every
parse, so lookups separated by a pipeline operation are not idempotent. -/
theorem claim_C5_counterexample :
    (regGet (safeSympifyEffects "x" [] (regGet {} "linspace").2)
        "linspace").1 ≠ (regGet {} "linspace").1 := by
  decide

/-- C5 (amended): within one context the symbol-table lookup itself is
idempotent and total — two consecutive lookups of the same name return
the same object and leave the registry unchanged (and never raise); it is
only lookups separated by a `_safe_sympify` parse that can differ, for
the seven rebound helper names. -/
theorem claim_C5_amended (r : SymbolRegistry) (k : String) :
    (regGet (regGet r k).2 k).1 = (regGet r k).1 ∧
    (regGet (regGet r k).2 k).2 = (regGet r k).2 := by
  unfold regGet
  cases h : dictGet r.table k with
  | some o => simp [h]
  | none => simp [h, dictGet_dictSet_self]

/-- C6 (counterexample): after `register_variable("x", _, 1.0)` followed
by `register_variable("x", _, None)` (the binding a failed assignment
registers), the numeric binding visible to later blocks is still the
first value — the second registration did not replace it. -/
theorem claim_C6_counterexample :
    dictGet (registerVariable (registerVariable {} "x" "e1"
        (some (.fin 1))) "x" "e2" none).numeric_values "x" =
      some (.fin 1) ∧
    (registerVariable (registerVariable {} "x" "e1" (some (.fin 1)))
        "x" "e2" none).variableRecords.getLast? =
      some ⟨"x", "e2", none⟩ := by
  decide

theorem dictGet_nil {α : Type} (k : String) :
    dictGet ([] : List (String × α)) k = none := rfl

theorem funcLookup_nil (k : String) : funcLookup [] k = none := rfl

/-- Evaluating a bare unknown name: both `eval` attempts raise `NameError`
and the SymPy fallback returns the free symbol unchanged. -/
theorem evaluateNumeric_name_missing (raw w : String) (ctx : EvalContext)
    (hparse : parseExprString (caretToDstar (normalizeExpression raw)) =
      .ok (.name w))
    (hsymp : parseExprString (normalizeExpression (pstrip raw)) = .ok (.name w))
    (hfn : funcLookup ctx.functions w = none)
    (hm : w ∉ mathEnvNames)
    (hv : dictGet ctx.numeric_values w = none)
    (ha : dictGet ctx.arrays w = none) :
    evaluateNumeric raw ctx = .ok (.se (.symb w)) := by
  simp [evaluateNumeric, hparse, EVAL_FUEL, evalPy, stage1Lookup, retryLookup,
        hfn, hm, hv, ha, sympyFallback, safeSympify, hsymp, toSym, symSubstN]

/-- Evaluating a bare name bound in `numeric_values`. -/
theorem evaluateNumeric_name_found (raw w : String) (ctx : EvalContext)
    (v : NVal)
    (hparse : parseExprString (caretToDstar (normalizeExpression raw)) =
      .ok (.name w))
    (hfn : funcLookup ctx.functions w = none)
    (hm : w ∉ mathEnvNames)
    (hv : dictGet ctx.numeric_values w = some v) :
    evaluateNumeric raw ctx = .ok (.pv (.nval v)) := by
  simp [evaluateNumeric, hparse, EVAL_FUEL, evalPy, stage1Lookup, hfn, hm, hv]

/-- A plain-expression block consisting of an unknown bare name stays
`ok` with no numeric value — the symbolic fallback result is displayed. -/
theorem runPlain_name_missing (raw w bid : String) (ctx : EvalContext)
    (hparse : parseExprString (caretToDstar (normalizeExpression raw)) =
      .ok (.name w))
    (hsymp : parseExprString (normalizeExpression (pstrip raw)) = .ok (.name w))
    (hfn : funcLookup ctx.functions w = none)
    (hm : w ∉ mathEnvNames)
    (hv : dictGet ctx.numeric_values w = none)
    (ha : dictGet ctx.arrays w = none) :
    runPlain raw bid ctx =
      ({ sympy_expr := some (some (.symb w)), result := w, latex := some w,
         numeric_value := none, evaluation_status := "ok" }, ctx) := by
  rw [runPlain, evaluateNumeric_name_missing raw w ctx hparse hsymp hfn hm hv ha]
  simp [safeSympify, hsymp, toSym, classifyPlain, exprIsRealNum, symSubstN,
        hv, symStr]

/-- A plain-expression block consisting of a bound bare name evaluates to
its numeric value. -/
theorem runPlain_name_found (raw w bid : String) (ctx : EvalContext) (v : NVal)
    (hparse : parseExprString (caretToDstar (normalizeExpression raw)) =
      .ok (.name w))
    (hsymp : parseExprString (normalizeExpression (pstrip raw)) = .ok (.name w))
    (hfn : funcLookup ctx.functions w = none)
    (hm : w ∉ mathEnvNames)
    (hv : dictGet ctx.numeric_values w = some v) :
    runPlain raw bid ctx =
      ({ sympy_expr := some (some (.symb w)), result := format2 v,
         latex := some w, numeric_value := some v,
         evaluation_status := "ok" }, ctx) := by
  rw [runPlain, evaluateNumeric_name_found raw w ctx v hparse hfn hm hv]
  simp [safeSympify, hsymp, toSym, classifyPlain, symStr]

/-- A numeric-literal assignment registers its value and succeeds. -/
theorem runBlockCore_assign_lit (raw lhs rhs bid : String) (q : ℚ)
    (ctx : EvalContext)
    (hstrip : pstrip raw = raw)
    (hsplit : assignSplit raw = some (lhs, rhs))
    (hlne : ¬ lhs = "")
    (hfd : parseFunctionDefinition lhs = none)
    (hstriprhs : pstrip rhs = rhs)
    (hfloat : parseFloat rhs = some q)
    (hparse : parseExprString (caretToDstar (normalizeExpression rhs)) =
      .ok (.num q)) :
    runBlockCore raw bid ctx =
      ({ sympy_expr := some (some (.num q)), result := format2 (.fin q),
         latex := some (lhs ++ " = " ++ ratStr q),
         numeric_value := some (.fin q), is_assignment := true,
         variable_name := some lhs, evaluation_status := "ok" },
       registerVariable ctx lhs (ratStr q) (some (.fin q))) := by
  simp [runBlockCore, hstrip, hsplit, hlne, hfd, parseAssignment, hstriprhs,
        hfloat, evaluateNumeric, hparse, EVAL_FUEL, evalPy, classifyAssign,
        symStr, latexName]

/-- C3 (amended): a block that references a name assigned only by a later
block does not fail — it completes with `evaluation_status = "ok"`, no
numeric value and no context error (the reference stays symbolic; no
`UnknownIdentifier` error type exists in the code); after moving the
defining block before the referencing block, the same reference evaluates
numerically to the assigned value.  Stated for documents whose referencing
block is the bare name and whose defining block assigns a numeric
literal. -/
theorem claim_C3_amended (w rawRef rawDef rhs : String) (q : ℚ)
    (idR idD : String)
    (hstripR : pstrip rawRef = rawRef)
    (hsplitR : assignSplit rawRef = none)
    (hsympR : parseExprString (normalizeExpression rawRef) = .ok (.name w))
    (hparseR : parseExprString (caretToDstar (normalizeExpression rawRef)) =
      .ok (.name w))
    (hm : w ∉ mathEnvNames)
    (hstripD : pstrip rawDef = rawDef)
    (hsplitD : assignSplit rawDef = some (w, rhs))
    (hwne : ¬ w = "")
    (hfd : parseFunctionDefinition w = none)
    (hstripRhs : pstrip rhs = rhs)
    (hfloat : parseFloat rhs = some q)
    (hparseD : parseExprString (caretToDstar (normalizeExpression rhs)) =
      .ok (.num q)) :
    statusNumErr (docEvaluate
        [Block.formula { raw := rawRef, block_id := idR },
         Block.formula { raw := rawDef, block_id := idD }] {}).1.head? =
      some ("ok", none, none) ∧
    (docEvaluate
        [Block.formula { raw := rawRef, block_id := idR },
         Block.formula { raw := rawDef, block_id := idD }] {}).2.errors = [] ∧
    statusNumErr (docEvaluate
        [Block.formula { raw := rawDef, block_id := idD },
         Block.formula { raw := rawRef, block_id := idR }] {}).1.getLast? =
      some ("ok", some (.fin q), none) := by
  have hrunRef : ∀ ctx : EvalContext, ctx.functions = [] →
      ctx.numeric_values = [] → ctx.arrays = [] →
      runBlockCore rawRef idR ctx =
        ({ sympy_expr := some (some (.symb w)), result := w, latex := some w,
           numeric_value := none, evaluation_status := "ok" }, ctx) := by
    intro ctx h1 h2 h3
    rw [runBlockCore, hstripR, hsplitR]
    exact runPlain_name_missing rawRef w idR ctx hparseR
      (by rw [hstripR]; exact hsympR)
      (by rw [h1]; exact funcLookup_nil w) hm
      (by rw [h2]; exact dictGet_nil w) (by rw [h3]; exact dictGet_nil w)
  have hrunDef : ∀ ctx : EvalContext,
      runBlockCore rawDef idD ctx =
        ({ sympy_expr := some (some (.num q)), result := format2 (.fin q),
           latex := some (w ++ " = " ++ ratStr q),
           numeric_value := some (.fin q), is_assignment := true,
           variable_name := some w, evaluation_status := "ok" },
         registerVariable ctx w (ratStr q) (some (.fin q))) := fun ctx =>
    runBlockCore_assign_lit rawDef w rhs idD q ctx hstripD hsplitD hwne hfd
      hstripRhs hfloat hparseD
  refine ⟨?_, ?_, ?_⟩
  · simp [docEvaluate, docEvalAux, evalBlockStep, evalFB, runBlock,
          hrunRef {} rfl rfl rfl, applyOut, statusNumErr]
  · simp [docEvaluate, docEvalAux, evalBlockStep, evalFB, runBlock,
          hrunRef {} rfl rfl rfl, hrunDef, applyOut, logRun,
          registerVariable, dictSet]
  · have hrunRef2 : runBlockCore rawRef idR
        (logRun (registerVariable {} w (ratStr q) (some (.fin q))) idD
          (pstrip rawDef)) =
        ({ sympy_expr := some (some (.symb w)), result := format2 (.fin q),
           latex := some w, numeric_value := some (.fin q),
           evaluation_status := "ok" },
         logRun (registerVariable {} w (ratStr q) (some (.fin q))) idD
           (pstrip rawDef)) := by
      rw [runBlockCore, hstripR, hsplitR]
      exact runPlain_name_found rawRef w idR _ (.fin q) hparseR
        (by rw [hstripR]; exact hsympR)
        (by simp [logRun, registerVariable, funcLookup_nil]) hm
        (by simp [logRun, registerVariable, dictSet, dictGet])
    simp [docEvaluate, docEvalAux, evalBlockStep, evalFB, runBlock,
          hrunDef, hrunRef2, applyOut, statusNumErr]

theorem claim_C3_witness :
    statusNumErr (docEvaluate
        [Block.formula { raw := "A", block_id := "r" },
         Block.formula { raw := "A = 2", block_id := "d" }] {}).1.head? =
      some ("ok", none, none) ∧
    (docEvaluate
        [Block.formula { raw := "A", block_id := "r" },
         Block.formula { raw := "A = 2", block_id := "d" }] {}).2.errors = [] ∧
    statusNumErr (docEvaluate
        [Block.formula { raw := "A = 2", block_id := "d" },
         Block.formula { raw := "A", block_id := "r" }] {}).1.getLast? =
      some ("ok", some (.fin 2), none) :=
  claim_C3_amended "A" "A" "A = 2" "2" 2 "r" "d" (by rfl) (by rfl) (by rfl)
    (by rfl) (by decide) (by rfl) (by rfl) (by decide) (by rfl) (by rfl)
    (by with_unfolding_all rfl) (by rfl)

theorem arith_ax (x : AX) : arithToSym (axToAst x) = some (axToSym x) := by
  induction x <;> simp [axToAst, arithToSym, axToSym, *]

theorem convert_ax (x : AX) :
    convertExpr (axToAst x) = some (.inl (axToSym x)) := by
  have h := arith_ax x
  cases x <;> simp only [axToAst] at h ⊢ <;> simp [convertExpr, h]

theorem convertTest_ax (t : CTest) :
    convertTest (testToAst t) = some (testToCond t) := by
  simp [testToAst, convertTest, convertExpr, buildRels, arith_ax, testToCond]

theorem extract_ax (x : AX) :
    extractBranchExpr (.cons (.exprStmt (axToAst x)) .nil) =
      some (axToSym x) := by
  simp [extractBranchExpr, convert_ax]

theorem parseIfStmt_chain : ∀ (rest : List CBranch) (b : CBranch)
    (els : Option AX),
    parseIfStmt (chainStmt b rest els) = some (chainPW b rest els) := by
  intro rest
  induction rest with
  | nil =>
      intro b els
      cases els <;>
        simp [chainStmt, parseIfStmt, parseOrelseChain, extract_ax,
          convertTest_ax, chainPW]
  | cons r t ih =>
      intro b els
      have ihr := ih r els
      rw [show chainStmt b (r :: t) els = .ifStmt (testToAst b.test)
        (.cons (.exprStmt (axToAst b.body)) .nil)
        (.cons (chainStmt r t els) .nil) from rfl]
      cases hc : chainStmt r t els with
      | exprStmt e => rw [hc] at ihr; simp [parseIfStmt] at ihr
      | ifStmt t2 b2 o2 =>
          rw [hc] at ihr
          simp only [parseIfStmt]
          simp only [extract_ax, convertTest_ax]
          simp only [parseOrelseChain]
          rw [ihr]
          simp [chainPW]

theorem parseConditional_chain (c : CondChain) :
    parseConditional (chainToStmts c) =
      some (.piecewise (chainPW c.first c.rest c.els)) := by
  have h := parseIfStmt_chain c.rest c.first c.els
  cases hc : chainStmt c.first c.rest c.els with
  | exprStmt e => rw [hc] at h; simp [parseIfStmt] at h
  | ifStmt t b o =>
      rw [hc] at h
      simp [chainToStmts, hc, parseConditional, h]

theorem chainPW_ne_nil (b : CBranch) (rest : List CBranch) (els : Option AX) :
    chainPW b rest els ≠ PWList.nil := by
  cases rest <;> cases els <;> simp [chainPW]

theorem pwLastCond_cons (v : SymExpr) (c : SymCond) (p : PWList)
    (h : p ≠ .nil) : pwLastCond (.cons v c p) = pwLastCond p := by
  cases p with
  | nil => exact absurd rfl h
  | cons v2 c2 t => rfl

theorem chainPW_lastCond : ∀ (rest : List CBranch) (b : CBranch)
    (els : Option AX), pwLastCond (chainPW b rest els) = .triv := by
  intro rest
  induction rest with
  | nil => intro b els; cases els <;> simp [chainPW, pwLastCond]
  | cons r t ih =>
      intro b els
      have hne := chainPW_ne_nil r t els
      simp only [chainPW]
      rw [pwLastCond_cons _ _ _ hne]
      exact ih r els

theorem symEvalT_addE (env : String → ℚ) (a b : SymExpr) :
    symEvalT env (symAddE a b) = nadd (symEvalT env a) (symEvalT env b) := by
  cases a <;> cases b <;> simp [symAddE, symEvalT, nadd]

theorem symEvalT_subE (env : String → ℚ) (a b : SymExpr) :
    symEvalT env (symSubE a b) = nsub (symEvalT env a) (symEvalT env b) := by
  cases a <;> cases b <;> simp [symSubE, symEvalT, nsub]

theorem symEvalT_mulE (env : String → ℚ) (a b : SymExpr) :
    symEvalT env (symMulE a b) = nmul (symEvalT env a) (symEvalT env b) := by
  cases a <;> cases b <;> simp [symMulE, symEvalT, nmul, apply_ite]

theorem symEvalT_ax (x : AX) (env : String → ℚ) :
    symEvalT env (axToSym x) = axEval env x := by
  induction x <;> simp [axToSym, axEval, symEvalT, symEvalT_addE,
    symEvalT_subE, symEvalT_mulE, *]

theorem condEvalT_triv (env : String → ℚ) : condEvalT env .triv = true := rfl

theorem condEvalT_test (t : CTest) (env : String → ℚ) :
    condEvalT env (testToCond t) = testEval env t := by
  simp [testToCond, condEvalT, testEval, symEvalT_ax]

theorem pwEval_chain : ∀ (rest : List CBranch) (b : CBranch)
    (els : Option AX) (env : String → ℚ),
    symEvalT env (.piecewise (chainPW b rest els)) =
      chainSem env b rest els := by
  intro rest
  induction rest with
  | nil =>
      intro b els env
      cases els <;>
        simp [chainPW, symEvalT, pwEvalT, condEvalT_test, condEvalT_triv,
          symEvalT_ax, chainSem]
  | cons r t ih =>
      intro b els env
      have ihv := ih r els env
      simp only [symEvalT, pwEvalT] at ihv ⊢
      simp [chainPW, condEvalT_test, symEvalT_ax, chainSem, ihv, pwEvalT]

theorem chainSem_nan : ∀ (rest : List CBranch) (b : CBranch)
    (env : String → ℚ), testEval env b.test = false →
    (∀ br ∈ rest, testEval env br.test = false) →
    chainSem env b rest none = .nan := by
  intro rest
  induction rest with
  | nil => intro b env hb _; simp [chainSem, hb]
  | cons r t ih =>
      intro b env hb hrest
      simp only [chainSem, hb]
      simp only [Bool.false_eq_true, if_false]
      exact ih r env (hrest r (by simp)) (fun br hbr => hrest br (by simp [hbr]))

/-- C7: a conforming conditional (inline ternary, or `if/elif/else` with
single-expression branch bodies and comparison tests) is translated by
`_parse_conditional_expr` into an ordered `Piecewise` whose final pair is
always-true; evaluating the `Piecewise` under current bindings selects the
first branch whose condition holds (then the `else` value); and when no
branch matches and no `else` was given, the result is the `nan` sentinel
rather than an error. -/
theorem claim_C7_piecewise :
    (∀ (c : CondChain) (env : String → ℚ),
      parseConditional (chainToStmts c) =
        some (.piecewise (chainPW c.first c.rest c.els)) ∧
      pwLastCond (chainPW c.first c.rest c.els) = .triv ∧
      symEvalT env (.piecewise (chainPW c.first c.rest c.els)) =
        chainSem env c.first c.rest c.els ∧
      (c.els = none → testEval env c.first.test = false →
        (∀ br ∈ c.rest, testEval env br.test = false) →
        symEvalT env (.piecewise (chainPW c.first c.rest c.els)) = .nan)) ∧
    (∀ (t : CTest) (b o : AX) (env : String → ℚ),
      parseConditional (.cons (.exprStmt (.ifExp (testToAst t) (axToAst b)
          (axToAst o))) .nil) =
        some (.piecewise (.cons (axToSym b) (testToCond t)
          (.cons (axToSym o) .triv .nil))) ∧
      symEvalT env (.piecewise (.cons (axToSym b) (testToCond t)
          (.cons (axToSym o) .triv .nil))) =
        (if testEval env t then axEval env b else axEval env o)) := by
  constructor
  · intro c env
    refine ⟨parseConditional_chain c, chainPW_lastCond c.rest c.first c.els,
      pwEval_chain c.rest c.first c.els env, ?_⟩
    intro hels hb hrest
    rw [pwEval_chain c.rest c.first c.els env, hels]
    exact chainSem_nan c.rest c.first env hb hrest
  · intro t b o env
    constructor
    · simp [parseConditional, convertExpr, convertTest_ax, convert_ax,
        testToAst, buildRels, arith_ax, testToCond]
    · simp [symEvalT, pwEvalT, condEvalT_test, condEvalT_triv, symEvalT_ax]

theorem claim_C7_witness :
    parseConditional (chainToStmts ⟨⟨⟨.var "x", .lt, .num 0⟩, .num 10⟩,
        [⟨⟨.var "x", .lt, .num 5⟩, .num 20⟩], some (.num 30)⟩) =
      some (.piecewise (chainPW ⟨⟨.var "x", .lt, .num 0⟩, .num 10⟩
        [⟨⟨.var "x", .lt, .num 5⟩, .num 20⟩] (some (.num 30)))) ∧
    symEvalT (fun _ => -1) (.piecewise (chainPW
        ⟨⟨.var "x", .lt, .num 0⟩, .num 10⟩
        [⟨⟨.var "x", .lt, .num 5⟩, .num 20⟩] (some (.num 30)))) =
      chainSem (fun _ => -1) ⟨⟨.var "x", .lt, .num 0⟩, .num 10⟩
        [⟨⟨.var "x", .lt, .num 5⟩, .num 20⟩] (some (.num 30)) ∧
    symEvalT (fun _ => 3) (.piecewise (chainPW
        ⟨⟨.var "x", .lt, .num 0⟩, .num 10⟩ [] none)) = .nan := by
  have h1 := (claim_C7_piecewise).1
    ⟨⟨⟨.var "x", .lt, .num 0⟩, .num 10⟩,
     [⟨⟨.var "x", .lt, .num 5⟩, .num 20⟩], some (.num 30)⟩ (fun _ => -1)
  have h2 := (claim_C7_piecewise).1
    ⟨⟨⟨.var "x", .lt, .num 0⟩, .num 10⟩, [], none⟩ (fun _ => 3)
  refine ⟨h1.1, h1.2.2.1, ?_⟩
  exact h2.2.2.2 rfl (by norm_num [testEval, axEval]) (by simp)

/-- C6 (amended): `register_variable` overwrites the numeric binding
whenever the new assignment carries a numeric value; a registration with
no value (a failed assignment) appends its record but leaves the previous
numeric binding in place, so later blocks see the most recent
*successfully evaluated* value. -/
theorem claim_C6_amended (ctx : EvalContext) (name e : String) (v : NVal) :
    dictGet (registerVariable ctx name e (some v)).numeric_values name =
      some v ∧
    (registerVariable ctx name e none).numeric_values =
      ctx.numeric_values ∧
    (registerVariable ctx name e none).variableRecords =
      ctx.variableRecords ++ [⟨name, e, none⟩] := by
  refine ⟨?_, rfl, rfl⟩
  simp [registerVariable, dictGet_dictSet_self]

end Notebook
